import Mathlib

/-!
Verification development for the `pipecheck` CSV ingestion pipeline
(`backend/app/pipeline.py`, `backend/app/ai_fixer.py`, `backend/app/models.py`).

The Python source is shallowly embedded below.  Rows are association lists
from column names to Python-level values; pandas `NaN` and Python `None`
are explicit constructors.  Strings are treated as sequences of Unicode
code points; the case-mapping helpers implement the ASCII behaviour, which
coincides with Python on the ASCII inputs exercised here.

An important fact about the source: the class `CSVProcessor` defines
`normalize_data`, `generate_row_hash` and `log_error` TWICE.  Python binds
the later definition of each, so the embedding of those methods follows
the later (effective) definitions; the shadowed first `normalize_data`
(pipeline.py lines 474-518) is also embedded, under a `_shadowed` name,
because it is the variant the specification describes.
-/

/-- Python value as it occurs in a row mapping in this pipeline:
a string, pandas `NaN` (from `na_values` parsing), Python `None`,
or a list of strings (only ever the `_fixes_applied` entry). -/
inductive PyVal where
  | vstr (s : String)
  | vnan
  | vnone
  | vlist (l : List String)
deriving Repr, DecidableEq

/-- A row mapping (Python `dict` from `row.to_dict()`): ordered association
list with pairwise-distinct keys. -/
abbrev Row := List (String × PyVal)

/-- `pd.isna` on the values that occur here: true for `NaN` and `None`. -/
def pyIsNA : PyVal → Bool
  | .vnan => true
  | .vnone => true
  | _ => false

/-- Python truthiness (`if value:`): empty string, `None` and the empty list
are falsy; `NaN` (a float) is truthy. -/
def pyTruthy : PyVal → Bool
  | .vstr s => s ≠ ""
  | .vnan => true
  | .vnone => false
  | .vlist l => l ≠ []

/-- Python `str(value)` for the values above (`str(nan) = "nan"`,
`str(None) = "None"`; the list case never reaches `str` in the
modelled flows). -/
def pyStr : PyVal → String
  | .vstr s => s
  | .vnan => "nan"
  | .vnone => "None"
  | .vlist _ => ""

/-- Python `dict.get(k, default)`. -/
def dictGet (d : Row) (k : String) (dflt : PyVal) : PyVal :=
  match d.find? (fun p => p.1 == k) with
  | some p => p.2
  | none => dflt

/-- Python `k in dict`. -/
def dictHas (d : Row) (k : String) : Bool :=
  d.any (fun p => p.1 == k)

/-- Python `dict[k] = v`: replace the value in place if the key exists
(keeping its position), else append the new key at the end. -/
def dictSet (d : Row) (k : String) (v : PyVal) : Row :=
  match d with
  | [] => [(k, v)]
  | (k', v') :: rest =>
    if k' == k then (k, v) :: rest else (k', v') :: dictSet rest k v

/-- The characters Python `str.strip()` removes. -/
def isPySpace (c : Char) : Bool :=
  c = ' ' || c = '\t' || c = '\n' || c = '\x0d' || c = '\x0b' || c = '\x0c'

/-- Python `str.strip()`. -/
def pyStrip (s : String) : String :=
  String.mk (((s.toList.dropWhile isPySpace).reverse.dropWhile isPySpace).reverse)

/-- Python `str.lower()` (ASCII case mapping). -/
def pyLower (s : String) : String :=
  String.mk (s.toList.map Char.toLower)

/-- Python `str.upper()` (ASCII case mapping). -/
def pyUpper (s : String) : String :=
  String.mk (s.toList.map Char.toUpper)

/-- Python `str.capitalize()`: first character upper-cased, rest lower-cased. -/
def pyCapitalize (s : String) : String :=
  match s.toList with
  | [] => ""
  | c :: cs => String.mk (c.toUpper :: cs.map Char.toLower)

/-- Helper for `str.title()`: the Boolean records whether the previous
character was cased (alphabetic, for ASCII). -/
def pyTitleAux : Bool → List Char → List Char
  | _, [] => []
  | prevAlpha, c :: cs =>
    if c.isAlpha then
      (if prevAlpha then c.toLower else c.toUpper) :: pyTitleAux true cs
    else
      c :: pyTitleAux false cs

/-- Python `str.title()` (ASCII). -/
def pyTitle (s : String) : String :=
  String.mk (pyTitleAux false s.toList)

/-- The null-like tokens of the pipeline (`CSVProcessor.null_variants`). -/
def nullVariants : List String :=
  ["", "NULL", "N/A", "n/a", "null", "-", "--", "none", "NONE"]

/-- Python `s.startswith(p)`. -/
def pyStartsWith (s p : String) : Bool :=
  p.toList.isPrefixOf s.toList

/-- All indices `i` such that the pattern occurs in `s` starting at `i`. -/
def subOccurrences (s pat : String) : List Nat :=
  (List.range (s.toList.length + 1)).filter
    (fun i => pat.toList.isPrefixOf (s.toList.drop i))

/-- Python `pat in s` (substring containment). -/
def pyInStr (pat s : String) : Bool :=
  subOccurrences s pat ≠ []

/-- Python `s.rfind(pat)`: start index of the last occurrence, `none` if absent
(the source only uses it when containment was already checked). -/
def pyRfind (s pat : String) : Option Nat :=
  (subOccurrences s pat).getLast?

/-- Index of the last occurrence of a character, if any. -/
def lastIndexOfChar (c : Char) (s : String) : Option Nat :=
  ((List.range s.toList.length).filter (fun i => s.toList.getD i ' ' = c)).getLast?

/-- Python `s[:i]`. -/
def strTake (s : String) (i : Nat) : String := String.mk (s.toList.take i)

/-- Python `s[i:]`. -/
def strDrop (s : String) (i : Nat) : String := String.mk (s.toList.drop i)

/-- Python `s.rsplit('.', 1)`: split at the last dot, if there is one. -/
def rsplitDotOnce (s : String) : List String :=
  match lastIndexOfChar '.' s with
  | none => [s]
  | some i => [strTake s i, strDrop s (i + 1)]

/-- Python `re.split(r'[._-]', s)`: split on every occurrence of `.`, `_`
or `-`, keeping empty segments. -/
def splitSepChars (s : String) : List String :=
  (s.toList.foldr
    (fun c (acc : List (List Char)) =>
      if c = '.' || c = '_' || c = '-' then [] :: acc
      else match acc with
        | [] => [[c]]
        | g :: gs => (c :: g) :: gs)
    [[]]).map String.mk

/-- Python `s.split()` (split on whitespace runs, dropping empty pieces):
helper accumulating the current word reversed. -/
def pyWordsAux (cur : List Char) : List Char → List String
  | [] => if cur = [] then [] else [String.mk cur.reverse]
  | c :: cs =>
    if isPySpace c then
      if cur = [] then pyWordsAux [] cs
      else String.mk cur.reverse :: pyWordsAux [] cs
    else pyWordsAux (c :: cur) cs

/-- Python `s.split()`. -/
def pyWords (s : String) : List String := pyWordsAux [] s.toList

/-- `re.sub(r'[^\d+]', '', s)`: keep only digits and `+`. -/
def keepDigitsPlus (s : String) : String :=
  String.mk (s.toList.filter (fun c => c.isDigit || c = '+'))

/-- `re.sub(r'[^\d]', '', s)`: keep only digits. -/
def keepDigits (s : String) : String :=
  String.mk (s.toList.filter Char.isDigit)

/-- `re.sub(r'\s+', ' ', s)`: collapse every whitespace run to one space.
The Boolean records whether we are inside a whitespace run. -/
def collapseWsAux : Bool → List Char → List Char
  | _, [] => []
  | inRun, c :: cs =>
    if isPySpace c then
      (if inRun then [] else [' ']) ++ collapseWsAux true cs
    else c :: collapseWsAux false cs

def collapseWs (s : String) : String := String.mk (collapseWsAux false s.toList)

/-- Python `s.isdigit()` (ASCII digits; nonempty). -/
def pyIsDigit (s : String) : Bool :=
  s ≠ "" && s.toList.all Char.isDigit

/-- Python `s.zfill(5)` for unsigned strings (the source applies it only to
all-digit strings). -/
def zfill5 (s : String) : String :=
  String.mk (List.replicate (5 - s.toList.length) '0') ++ s

/-- Python `s.split(sep)` for a one-character separator, keeping empty
segments (so `"".split("@") = [""]`). -/
def splitOnChar (sep : Char) (s : String) : List String :=
  (s.toList.foldr
    (fun c (acc : List (List Char)) =>
      if c = sep then [] :: acc
      else match acc with
        | [] => [[c]]
        | g :: gs => (c :: g) :: gs)
    [[]]).map String.mk

/-- Character class `[a-zA-Z0-9._%+-]` (local part of the email regex). -/
def isLocalChar (c : Char) : Bool :=
  c.isAlpha || c.isDigit || c = '.' || c = '_' || c = '%' || c = '+' || c = '-'

/-- Character class `[a-zA-Z0-9.-]` (domain of the email regex). -/
def isDomainChar (c : Char) : Bool :=
  c.isAlpha || c.isDigit || c = '.' || c = '-'

/-- Decision procedure for the pipeline's email regex
`^[a-zA-Z0-9._%+-]+@[a-zA-Z0-9.-]+\.[a-zA-Z]{2,}$`.
A string matches iff it splits at a unique `@` into a nonempty local part
over the local class and a domain of shape `X.T` where `X` is nonempty over
the domain class and `T` is at least two ASCII letters; since `T` may not
contain a dot, the split of the domain is necessarily at its last dot. -/
def emailRegexMatch (s : String) : Bool :=
  match splitOnChar '@' s with
  | [l, d] =>
    l ≠ "" && l.toList.all isLocalChar &&
    (match lastIndexOfChar '.' d with
     | none => false
     | some i =>
       let x := (strTake d i).toList
       let t := (strDrop d (i + 1)).toList
       x ≠ [] && x.all isDomainChar && t.length ≥ 2 && t.all Char.isAlpha)
  | _ => false

example : pyStrip "  a b " = "a b" := by decide
example : pyTitle "john doe" = "John Doe" := by decide
example : pyCapitalize "johndoe" = "Johndoe" := by decide
example : emailRegexMatch "john.doe@example.com" = true := by decide
example : emailRegexMatch "not-an-email" = false := by decide
example : emailRegexMatch "a@b.c" = false := by decide
example : emailRegexMatch "a@b.co" = true := by decide
example : emailRegexMatch "@x.com" = false := by decide
example : splitSepChars "john.doe" = ["john", "doe"] := by decide
example : rsplitDotOnce "JohnDoe.example" = ["JohnDoe", "example"] := by decide
example : pyRfind "JohnDoe.example.com" ".com" = some 15 := by decide
example : keepDigitsPlus "+1 (555) 123-4567" = "+15551234567" := by decide
example : collapseWs "a   b  c" = "a b c" := by decide
example : zfill5 "123" = "00123" := by decide
example : pyWords "John  Doe " = ["John", "Doe"] := by decide

/-! ## JSON serialization (`json.dumps`) -/

/-- Lower-case hex digit. -/
def hexDigit (n : Nat) : Char :=
  if n < 10 then Char.ofNat (48 + n) else Char.ofNat (87 + n)

/-- Four lower-case hex digits. -/
def hex4 (n : Nat) : String :=
  String.mk [hexDigit (n / 4096 % 16), hexDigit (n / 256 % 16),
             hexDigit (n / 16 % 16), hexDigit (n % 16)]

/-- `json.dumps` escaping of one character with the default
`ensure_ascii=True`: characters outside printable ASCII are `\uXXXX`-escaped
(surrogate pairs above the BMP), `"` and `\` and the short control escapes
as usual. -/
def jsonEscapeChar (c : Char) : String :=
  if c = '"' then "\\\""
  else if c = '\\' then "\\\\"
  else if c = '\n' then "\\n"
  else if c = '\x0d' then "\\r"
  else if c = '\t' then "\\t"
  else if c = '\x08' then "\\b"
  else if c = '\x0c' then "\\f"
  else if c.toNat < 32 then "\\u" ++ hex4 c.toNat
  else if c.toNat < 127 then String.mk [c]
  else if c.toNat ≤ 65535 then "\\u" ++ hex4 c.toNat
  else
    "\\u" ++ hex4 (55296 + (c.toNat - 65536) / 1024) ++
    "\\u" ++ hex4 (56320 + (c.toNat - 65536) % 1024)

/-- A JSON string literal. -/
def jsonStr (s : String) : String :=
  "\"" ++ String.join (s.toList.map jsonEscapeChar) ++ "\""

/-- One value serialized by `json.dumps` (default separators, so lists use
`", "`); `None` becomes `null` and pandas `NaN` becomes the non-standard
token `NaN` that Python's serializer emits. -/
def jsonOfPyVal : PyVal → String
  | .vstr s => jsonStr s
  | .vnone => "null"
  | .vnan => "NaN"
  | .vlist l => "[" ++ String.intercalate ", " (l.map jsonStr) ++ "]"

/-- `json.dumps(d)` with default arguments: keys in insertion order,
item separator `", "`, key separator `": "`. -/
def jsonDumpsDefault (d : Row) : String :=
  "\x7b" ++
    String.intercalate ", "
      (d.map (fun p => jsonStr p.1 ++ ": " ++ jsonOfPyVal p.2)) ++
  "\x7d"

/-- Lexicographic comparison of character lists by code point (Python's
string order, used by `sorted` and `sort_keys=True`). -/
def charListLe : List Char → List Char → Bool
  | [], _ => true
  | _ :: _, [] => false
  | a :: as, b :: bs =>
    if a.toNat < b.toNat then true
    else if b.toNat < a.toNat then false
    else charListLe as bs

/-- Python string `<=` (code-point lexicographic). -/
def strLe (a b : String) : Bool := charListLe a.toList b.toList

/-- Insert an entry into a key-sorted association list (used to model
`sort_keys=True`). -/
def insertSortedByKey (x : String × PyVal) : Row → Row
  | [] => [x]
  | y :: ys => if strLe x.1 y.1 then x :: y :: ys else y :: insertSortedByKey x ys

/-- Sort an association list by key (insertion sort; stable, matching
Python's sort of the key set, which here has distinct keys). -/
def sortByKey (d : Row) : Row := d.foldr insertSortedByKey []

/-- `json.dumps(d, sort_keys=True, separators=(",", ":"))`. -/
def jsonDumpsSortedCompact (d : Row) : String :=
  "\x7b" ++
    String.intercalate ","
      ((sortByKey d).map (fun p => jsonStr p.1 ++ ":" ++ jsonOfPyVal p.2)) ++
  "\x7d"

example : jsonDumpsSortedCompact [("b", .vstr "x"), ("a", .vnone)]
    = "\x7b\"a\":null,\"b\":\"x\"\x7d" := by decide
example : jsonDumpsDefault [("a", .vstr "x\"y")]
    = "\x7b\"a\": \"x\\\"y\"\x7d" := by decide

/-! ## SHA-256 (`hashlib.sha256(...).hexdigest()`)

Implemented over `Nat` with explicit reduction modulo `2^32`. -/

/-- Truncate to a 32-bit word. -/
def w32 (n : Nat) : Nat := n % 4294967296

/-- Right rotation of a 32-bit word. -/
def rotr (n x : Nat) : Nat := w32 ((x >>> n) ||| (x <<< (32 - n)))

/-- Bitwise complement of a 32-bit word. -/
def wnot (x : Nat) : Nat := x ^^^ 4294967295

def shaCh (x y z : Nat) : Nat := (x &&& y) ^^^ (wnot x &&& z)

def shaMaj (x y z : Nat) : Nat := (x &&& y) ^^^ (x &&& z) ^^^ (y &&& z)

def bigSigma0 (x : Nat) : Nat := rotr 2 x ^^^ rotr 13 x ^^^ rotr 22 x

def bigSigma1 (x : Nat) : Nat := rotr 6 x ^^^ rotr 11 x ^^^ rotr 25 x

def smallSigma0 (x : Nat) : Nat := rotr 7 x ^^^ rotr 18 x ^^^ (x >>> 3)

def smallSigma1 (x : Nat) : Nat := rotr 17 x ^^^ rotr 19 x ^^^ (x >>> 10)

/-- The 64 SHA-256 round constants. -/
def sha256K : List Nat :=
  [1116352408, 1899447441, 3049323471, 3921009573, 961987163,
   1508970993, 2453635748, 2870763221, 3624381080, 310598401,
   607225278, 1426881987, 1925078388, 2162078206, 2614888103,
   3248222580, 3835390401, 4022224774, 264347078, 604807628,
   770255983, 1249150122, 1555081692, 1996064986, 2554220882,
   2821834349, 2952996808, 3210313671, 3336571891, 3584528711,
   113926993, 338241895, 666307205, 773529912, 1294757372,
   1396182291, 1695183700, 1986661051, 2177026350, 2456956037,
   2730485921, 2820302411, 3259730800, 3345764771, 3516065817,
   3600352804, 4094571909, 275423344, 430227734, 506948616,
   659060556, 883997877, 958139571, 1322822218, 1537002063,
   1747873779, 1955562222, 2024104815, 2227730452, 2361852424,
   2428436474, 2756734187, 3204031479, 3329325298]

/-- The SHA-256 initial hash value. -/
def sha256H0 : List Nat :=
  [1779033703, 3144134277, 1013904242,
   2773480762, 1359893119, 2600822924,
   528734635, 1541459225]

/-- One message-schedule extension step; the list holds the schedule so far
in reverse (head = most recent word). -/
def schedStep (r : List Nat) : List Nat :=
  w32 (r.getD 15 0 + smallSigma0 (r.getD 14 0) + r.getD 6 0 +
       smallSigma1 (r.getD 1 0)) :: r

/-- The 64-word message schedule of one block (given as 16 words). -/
def sha256Schedule (block : List Nat) : List Nat :=
  ((List.range 48).foldl (fun r _ => schedStep r) block.reverse).reverse

/-- One compression round on the state `[a,b,c,d,e,f,g,h]`. -/
def compressRound (st : List Nat) (kw : Nat × Nat) : List Nat :=
  match st with
  | [a, b, c, d, e, f, g, h] =>
    let t1 := w32 (h + bigSigma1 e + shaCh e f g + kw.1 + kw.2)
    let t2 := w32 (bigSigma0 a + shaMaj a b c)
    [w32 (t1 + t2), a, b, c, w32 (d + t1), e, f, g]
  | _ => st

/-- Compress one 16-word block into the hash value. -/
def compressBlock (hv : List Nat) (block : List Nat) : List Nat :=
  let st := (sha256K.zip (sha256Schedule block)).foldl compressRound hv
  (hv.zip st).map (fun p => w32 (p.1 + p.2))

/-- Big-endian bytes to 32-bit words. -/
def bytesToWords : List Nat → List Nat
  | a :: b :: c :: d :: rest =>
    (a * 16777216 + b * 65536 + c * 256 + d) :: bytesToWords rest
  | _ => []

/-- Split a list into chunks of size `k` (structural recursion; the counter
is the remaining capacity of the current chunk, accumulated reversed). -/
def chunkedAux (k : Nat) : Nat → List Nat → List Nat → List (List Nat)
  | _, cur, [] => if cur.isEmpty then [] else [cur.reverse]
  | 0, cur, x :: xs => cur.reverse :: chunkedAux k (k - 1) [x] xs
  | n + 1, cur, x :: xs => chunkedAux k n (x :: cur) xs

def chunked (k : Nat) (l : List Nat) : List (List Nat) := chunkedAux k k [] l

/-- The eight big-endian bytes of a 64-bit length. -/
def beBytes8 (n : Nat) : List Nat :=
  [n / 72057594037927936 % 256, n / 281474976710656 % 256,
   n / 1099511627776 % 256, n / 4294967296 % 256,
   n / 16777216 % 256, n / 65536 % 256, n / 256 % 256, n % 256]

/-- SHA-256 padding: `0x80`, zeros to 56 mod 64, then the bit length. -/
def sha256Pad (msg : List Nat) : List Nat :=
  msg ++ (128 :: List.replicate ((119 - msg.length % 64) % 64) 0) ++
    beBytes8 (8 * msg.length)

/-- The eight 32-bit words of the SHA-256 digest of a byte sequence. -/
def sha256Words (msg : List Nat) : List Nat :=
  ((chunked 64 (sha256Pad msg)).map bytesToWords).foldl compressBlock sha256H0

/-- Eight lower-case hex digits of a 32-bit word. -/
def toHex8 (n : Nat) : String :=
  String.mk [hexDigit (n / 268435456 % 16), hexDigit (n / 16777216 % 16),
             hexDigit (n / 1048576 % 16), hexDigit (n / 65536 % 16),
             hexDigit (n / 4096 % 16), hexDigit (n / 256 % 16),
             hexDigit (n / 16 % 16), hexDigit (n % 16)]

/-- The UTF-8 bytes of one code point. -/
def utf8Bytes (c : Char) : List Nat :=
  let n := c.toNat
  if n < 128 then [n]
  else if n < 2048 then [192 + n / 64, 128 + n % 64]
  else if n < 65536 then [224 + n / 4096, 128 + n / 64 % 64, 128 + n % 64]
  else [240 + n / 262144, 128 + n / 4096 % 64, 128 + n / 64 % 64, 128 + n % 64]

/-- The UTF-8 bytes of a string (`str.encode()`). -/
def strBytes (s : String) : List Nat :=
  (s.toList.map utf8Bytes).flatten

/-- `hashlib.sha256(s.encode()).hexdigest()`. -/
def sha256Hex (s : String) : String :=
  String.join ((sha256Words (strBytes s)).map toHex8)

example : sha256Hex "" =
    "e3b0c44298fc1c149afbf4c8996fb92427ae41e4649b934ca495991b7852b855" := by
  decide
example : sha256Hex "abc" =
    "ba7816bf8f01cfea414140de5dae2223b00361a396177a9cb410ff61f20015ad" := by
  decide

/-! ## The per-row pipeline (`CSVProcessor.auto_fix_row`,
`validate_row_lenient`, `normalize_data`, `generate_row_hash`) -/

/-- The TLD-like substrings used by the email auto-fix
(pipeline.py line 342). -/
def domainPatterns : List String := [".com", ".io", ".co", ".net", ".org", ".biz"]

/-- The `for pattern in domain_patterns` loop of `auto_fix_row`
(pipeline.py lines 343-354): the first contained pattern whose preceding
part holds a dot produces the fixed email and a fix description and breaks;
a contained pattern whose preceding part has no dot does NOT break. -/
def emailFixLoop (origEmail email : String) : List String → String × List String
  | [] => (email, [])
  | pat :: rest =>
    if pyInStr pat email then
      match pyRfind email pat with
      | some idx =>
        let pre := strTake email idx
        let suf := strDrop email idx
        match rsplitDotOnce pre with
        | [p0, p1] =>
          let email' := p0 ++ "@" ++ p1 ++ suf
          (email',
           ["Fixed email: added @ symbol (" ++ origEmail ++ " -> " ++ email' ++ ")"])
        | _ => emailFixLoop origEmail email rest
      | none => emailFixLoop origEmail email rest
    else emailFixLoop origEmail email rest

/-- The email block of `auto_fix_row` (pipeline.py lines 335-366). -/
def auto_fix_email (rd : Row) (fixes : List String) : Row × List String :=
  if dictHas rd "email" then
    let email0 := pyStrip (pyStr (dictGet rd "email" (.vstr "")))
    let origEmail := email0
    let r1 :=
      if email0 ≠ "" && !(pyInStr "@" email0) then
        let fl := emailFixLoop origEmail email0 domainPatterns
        (fl.1, fixes ++ fl.2)
      else (email0, fixes)
    let email2 := if pyStartsWith r1.1 "@" then "" else r1.1
    let r2 :=
      if email2 ≠ "" then
        let e := pyStrip (pyLower email2)
        if e ≠ pyStrip (pyLower origEmail) then
          (e, r1.2 ++ ["Normalized email to lowercase"])
        else (e, r1.2)
      else (email2, r1.2)
    (dictSet rd "email" (.vstr r2.1), r2.2)
  else (rd, fixes)

/-- The phone block of `auto_fix_row` (pipeline.py lines 369-387): keep only
digits and `+`; pad with a placeholder area code when the remaining LENGTH
is 7-9; clear when the length is below 7. -/
def auto_fix_phone (rd : Row) (fixes : List String) : Row × List String :=
  if dictHas rd "phone" then
    let phone := pyStrip (pyStr (dictGet rd "phone" (.vstr "")))
    if phone ≠ "" && !(nullVariants.contains phone) then
      let pc := keepDigitsPlus phone
      if pc.toList.length < 10 && pc.toList.length ≥ 7 then
        (dictSet rd "phone" (.vstr ("000" ++ pc)),
         fixes ++ ["Phone number padded with placeholder area code (" ++ phone ++
                   " -> " ++ ("000" ++ pc) ++ ")"])
      else if pc.toList.length < 7 then
        (dictSet rd "phone" (.vstr ""),
         fixes ++ ["Phone number too short, cleared (" ++ phone ++ ")"])
      else (dictSet rd "phone" (.vstr pc), fixes)
    else (rd, fixes)
  else (rd, fixes)

/-- The name block of `auto_fix_row` (pipeline.py lines 390-403): when the
name is empty/null-like, derive it from the email's local part by splitting
on `.`, `_`, `-` and capitalizing the nonempty segments. -/
def auto_fix_name (rd : Row) (fixes : List String) : Row × List String :=
  if dictHas rd "name" then
    let name := pyStrip (pyStr (dictGet rd "name" (.vstr "")))
    if (name = "" || nullVariants.contains name) && dictHas rd "email" then
      let email := pyStr (dictGet rd "email" (.vstr ""))
      if pyInStr "@" email then
        let ePre := (splitOnChar '@' email).headD ""
        let extracted :=
          String.intercalate " "
            (((splitSepChars ePre).filter (fun part => part ≠ "")).map pyCapitalize)
        if extracted.toList.length ≥ 2 then
          (dictSet rd "name" (.vstr extracted),
           fixes ++ ["Extracted name from email: " ++ extracted])
        else (rd, fixes)
      else (rd, fixes)
    else (rd, fixes)
  else (rd, fixes)

/-- Is a row value a member of `null_variants` (only strings compare equal
to the string tokens)? -/
def pyValInNullVariants : PyVal → Bool
  | .vstr s => nullVariants.contains s
  | _ => false

/-- The `for col, val in row_dict.items()` loop of `auto_fix_row`
(pipeline.py lines 407-413): first non-email column whose truthy value
contains `@` and whose stripped lower-casing matches the email regex. -/
def emailScanLoop : Row → Option (String × String)
  | [] => none
  | (col, val) :: rest =>
    if col ≠ "email" && pyTruthy val && pyInStr "@" (pyStr val) then
      let pot := pyLower (pyStrip (pyStr val))
      if emailRegexMatch pot then some (col, pot) else emailScanLoop rest
    else emailScanLoop rest

/-- The missing-email recovery block of `auto_fix_row`
(pipeline.py lines 406-413). -/
def auto_fix_scan (rd : Row) (fixes : List String) : Row × List String :=
  if dictHas rd "email" &&
     (!(pyTruthy (dictGet rd "email" (.vstr ""))) ||
      pyValInNullVariants (dictGet rd "email" (.vstr ""))) then
    match emailScanLoop rd with
    | some cp =>
      (dictSet rd "email" (.vstr cp.2),
       fixes ++ ["Found email in \x27" ++ cp.1 ++ "\x27 column: " ++ cp.2])
    | none => (rd, fixes)
  else (rd, fixes)

/-- `CSVProcessor.auto_fix_row` (pipeline.py lines 329-419): the four fix
blocks applied in source order, threading the fix log. -/
def auto_fix_row (row : Row) : Row × List String :=
  let a := auto_fix_email row []
  let b := auto_fix_phone a.1 a.2
  let c := auto_fix_name b.1 b.2
  auto_fix_scan c.1 c.2

/-- The phone-cleaning block of `validate_row_lenient` (pipeline.py lines
440-443): a present, truthy, non-null-like phone is reduced to its digits
and `+` characters, becoming `None` when nothing remains. -/
def validate_clean_phone (rd1 : Row) : Row :=
  if dictHas rd1 "phone" && pyTruthy (dictGet rd1 "phone" (.vstr "")) &&
     !(nullVariants.contains (pyStrip (pyStr (dictGet rd1 "phone" (.vstr ""))))) then
    let pc := keepDigitsPlus (pyStrip (pyStr (dictGet rd1 "phone" (.vstr ""))))
    dictSet rd1 "phone" (if pc = "" then .vnone else .vstr pc)
  else rd1

/-- The name block of `validate_row_lenient` (pipeline.py lines 446-448):
a present name is trimmed, becoming `None` when empty or null-like. -/
def validate_clean_name (rd2 : Row) : Row :=
  if dictHas rd2 "name" then
    let nm := pyStrip (pyStr (dictGet rd2 "name" (.vstr "")))
    dictSet rd2 "name"
      (if nm ≠ "" && !(nullVariants.contains nm) then .vstr nm else .vnone)
  else rd2

/-- `CSVProcessor.validate_row_lenient` (pipeline.py lines 421-450).
`ValidationError` is modelled as `Except.error` carrying the message. -/
def validate_row_lenient (rd : Row) : Except String Row :=
  if (rd.map Prod.fst).all (fun col =>
       pyIsNA (dictGet rd col .vnone) ||
       nullVariants.contains (pyStrip (pyStr (dictGet rd col (.vstr ""))))) then
    .error "Row is completely empty"
  else
    let email := pyStrip (pyStr (dictGet rd "email" (.vstr "")))
    if email = "" || nullVariants.contains email then
      .error "Missing required field: email"
    else if !(emailRegexMatch email) then
      .error ("Invalid email format: \x27" ++ email ++ "\x27")
    else
      .ok (validate_clean_name
        (validate_clean_phone (dictSet rd "email" (.vstr (pyLower email)))))

/-- The EFFECTIVE `CSVProcessor.normalize_data` (pipeline.py lines 594-617;
this later duplicate definition is the one Python binds): `NaN`/`None`
become `None`; strings are stripped and then title-cased for `name`/`city`
and LOWER-cased for every other key; then first/last name are derived,
address whitespace is collapsed, and the ZIP is shaped. -/
def normalize_data (data : Row) : Row :=
  let normalized := data.map (fun p =>
    if pyIsNA p.2 then (p.1, PyVal.vnone)
    else match p.2 with
      | .vstr s =>
        (p.1, PyVal.vstr
          (if p.1 = "name" || p.1 = "city" then pyTitle (pyStrip s)
           else pyLower (pyStrip s)))
      | v => (p.1, v))
  let n1 :=
    if dictHas normalized "name" && pyTruthy (dictGet normalized "name" .vnone) then
      let parts := pyWords (pyStr (dictGet normalized "name" (.vstr "")))
      dictSet (dictSet normalized "first_name" (.vstr (parts.headD "")))
        "last_name"
        (.vstr (if parts.length > 1 then String.intercalate " " parts.tail else ""))
    else normalized
  let n2 :=
    if dictHas n1 "address" && pyTruthy (dictGet n1 "address" .vnone) then
      dictSet n1 "address"
        (.vstr (pyStrip (collapseWs (pyStr (dictGet n1 "address" (.vstr ""))))))
    else n1
  if dictHas n2 "zip" && pyTruthy (dictGet n2 "zip" .vnone) then
    let zc := (splitOnChar '-' (pyStr (dictGet n2 "zip" (.vstr "")))).headD ""
    dictSet n2 "zip" (.vstr (if pyIsDigit zc then zfill5 zc else zc))
  else n2

/-- The SHADOWED first `CSVProcessor.normalize_data` (pipeline.py lines
474-518).  Python never calls it because the later duplicate overrides it;
it is embedded because it is the behaviour the specification describes
(identity field lower-cased, name/city/derived names title-cased,
state/country UPPER-cased, all other strings trimmed only, null-like
strings collapsed to `None`). -/
def normalize_data_shadowed (data : Row) : Row :=
  let normalized := data.map (fun p =>
    if pyIsNA p.2 ||
       (match p.2 with
        | .vstr s => nullVariants.contains (pyStrip s)
        | _ => false) then (p.1, PyVal.vnone)
    else match p.2 with
      | .vstr s =>
        let v := pyStrip s
        (p.1, PyVal.vstr
          (if p.1 = "name" || p.1 = "city" || p.1 = "first_name" ||
              p.1 = "last_name" then pyTitle v
           else if p.1 = "email" then pyLower v
           else if p.1 = "state" || p.1 = "country" then pyUpper v
           else v))
      | v => (p.1, v))
  let n1 :=
    if dictHas normalized "name" && pyTruthy (dictGet normalized "name" .vnone) then
      let parts := pyWords (pyStr (dictGet normalized "name" (.vstr "")))
      dictSet (dictSet normalized "first_name" (.vstr (parts.headD "")))
        "last_name"
        (.vstr (if parts.length > 1 then String.intercalate " " parts.tail else ""))
    else normalized
  let n2 :=
    if dictHas n1 "address" && pyTruthy (dictGet n1 "address" .vnone) then
      dictSet n1 "address"
        (.vstr (pyStrip (collapseWs (pyStr (dictGet n1 "address" (.vstr ""))))))
    else n1
  if dictHas n2 "zip" && pyTruthy (dictGet n2 "zip" .vnone) then
    let zc := (splitOnChar '-' (pyStr (dictGet n2 "zip" (.vstr "")))).headD ""
    dictSet n2 "zip"
      (.vstr (if pyIsDigit zc && zc.toList.length ≤ 5 then zfill5 zc else zc))
  else n2

/-- The fixed key set of `generate_row_hash` (pipeline.py lines 620-629),
in the source's construction order; a missing key contributes the empty
string via `data.get(key, "")`. -/
def generate_row_hash_data (data : Row) : Row :=
  [("email", dictGet data "email" (.vstr "")),
   ("name", dictGet data "name" (.vstr "")),
   ("phone", dictGet data "phone" (.vstr "")),
   ("address", dictGet data "address" (.vstr "")),
   ("city", dictGet data "city" (.vstr "")),
   ("state", dictGet data "state" (.vstr "")),
   ("zip", dictGet data "zip" (.vstr "")),
   ("country", dictGet data "country" (.vstr ""))]

/-- `CSVProcessor.generate_row_hash` (pipeline.py lines 619-632, the
effective later duplicate; the shadowed first definition at lines 520-534
is textually identical): SHA-256 hex digest of the canonical compact
sorted-key JSON serialization of the eight identity fields. -/
def generate_row_hash (data : Row) : String :=
  sha256Hex (jsonDumpsSortedCompact (generate_row_hash_data data))

/-! ## Records, the session, and the batch/run coordinators
(`models.py`; `CSVProcessor.process_row`, `log_error`, `process_batch`,
`process_csv`)

The SQLAlchemy session is modelled as committed tables plus a pending
operation list: `db.add` appends a pending insert, attribute mutation on a
fetched record is a pending update, `db.commit()` applies all pending
operations, `db.rollback()` discards them.  Queries see the flushed state
(the session autoflushes pending writes before a query).  Wall-clock
columns (`created_at`, `updated_at`) are outside the embedding. -/

/-- `models.DataRow` (the stored canonical Record). -/
structure DataRow where
  row_hash : String
  run_id : String
  row_index : Nat
  normalized_data : String
  raw_data : String
deriving Repr, DecidableEq

/-- `models.ErrorLog` (one ErrorEntry). -/
structure ErrorLog where
  run_id : String
  row_index : Nat
  error_code : String
  error_message : String
  raw_data : String
deriving Repr, DecidableEq

abbrev Store := List DataRow

/-- Update the first record carrying the hash: overwrite its owning run and
normalized content (pipeline.py lines 310-312; `updated_at` not modelled). -/
def replaceFirstByHash (h runId norm : String) : Store → Store
  | [] => []
  | r :: rs =>
    if r.row_hash == h then
      { r with run_id := runId, normalized_data := norm } :: rs
    else r :: replaceFirstByHash h runId norm rs

/-- A pending session operation. -/
inductive DbOp where
  | insertRow (r : DataRow)
  | insertErr (e : ErrorLog)
  | updateRow (rowHash runId norm : String)
deriving Repr, DecidableEq

/-- The database session: committed tables plus pending operations. -/
structure Session where
  rows : Store
  errors : List ErrorLog
  pending : List DbOp
deriving Repr, DecidableEq

def applyOp (s : Session) : DbOp → Session
  | .insertRow r => { s with rows := s.rows ++ [r] }
  | .insertErr e => { s with errors := s.errors ++ [e] }
  | .updateRow h run norm => { s with rows := replaceFirstByHash h run norm s.rows }

/-- `db.commit()`: apply every pending operation in order. -/
def Session.commit (s : Session) : Session :=
  { s.pending.foldl applyOp s with pending := [] }

/-- `db.rollback()`: discard pending operations. -/
def Session.rollback (s : Session) : Session := { s with pending := [] }

/-- The rows a query sees (committed rows with pending writes autoflushed). -/
def Session.flushedRows (s : Session) : Store := s.commit.rows

/-- The store-decision part of `CSVProcessor.process_row` (pipeline.py lines
295-327) over a plain store, with the store's update applied directly:
compute the fingerprint of the normalized row, attach the fix log, then
insert / update ("latest run wins") / skip by fingerprint and owning run. -/
def store_validated (store : Store) (runId : String) (rowIndex : Nat)
    (normalized : Row) (fixes : List String) (raw : Row) : String × Store :=
  let row_hash := generate_row_hash normalized
  let nd := if fixes ≠ [] then dictSet normalized "_fixes_applied" (.vlist fixes)
            else normalized
  match store.find? (fun r => r.row_hash == row_hash) with
  | some existing =>
    if existing.run_id == runId then ("skipped", store)
    else ("updated", replaceFirstByHash row_hash runId (jsonDumpsDefault nd) store)
  | none =>
    ("inserted",
     store ++ [⟨row_hash, runId, rowIndex, jsonDumpsDefault nd, jsonDumpsDefault raw⟩])

/-- `ai_fixer.fix_row` when the collaborator is disabled or its call fails
(ai_fixer.py lines 63-64, 127-132): the row is returned unchanged with no
fixes. -/
def fix_row_disabled : Row → String → List String → Row × List String :=
  fun rowData _ _ => (rowData, [])

/-- `CSVProcessor.process_row` (pipeline.py lines 265-327) over a plain
store.  The AI collaborator is a parameter with the interface of
`ai_fixer.fix_row` (row, error message, column list); `ai_fixer.enabled`
is the Boolean parameter. -/
def process_row (aiEnabled : Bool)
    (aiFix : Row → String → List String → Row × List String)
    (store : Store) (row : Row) (rowIndex : Nat) (runId : String) :
    Except String (String × Store) :=
  let fa := auto_fix_row row
  match validate_row_lenient fa.1 with
  | .ok validated =>
    .ok (store_validated store runId rowIndex (normalize_data validated) fa.2 row)
  | .error e =>
    if aiEnabled then
      let af := aiFix fa.1 e (row.map Prod.fst)
      match validate_row_lenient af.1 with
      | .ok validated =>
        .ok (store_validated store runId rowIndex (normalize_data validated)
              (fa.2 ++ af.2) row)
      | .error _ => .error e
    else .error e

/-- The store-decision part of `process_row` over the session: an insert is
a pending `db.add`; an update is a tracked mutation immediately committed
(pipeline.py line 313); a skip touches nothing. -/
def store_validated_session (sess : Session) (runId : String) (rowIndex : Nat)
    (normalized : Row) (fixes : List String) (raw : Row) : String × Session :=
  let row_hash := generate_row_hash normalized
  let nd := if fixes ≠ [] then dictSet normalized "_fixes_applied" (.vlist fixes)
            else normalized
  match sess.flushedRows.find? (fun r => r.row_hash == row_hash) with
  | some existing =>
    if existing.run_id == runId then ("skipped", sess)
    else
      ("updated",
       Session.commit
         { sess with
           pending := sess.pending ++ [.updateRow row_hash runId (jsonDumpsDefault nd)] })
  | none =>
    ("inserted",
     { sess with
       pending := sess.pending ++
         [.insertRow ⟨row_hash, runId, rowIndex, jsonDumpsDefault nd, jsonDumpsDefault raw⟩] })

/-- `CSVProcessor.process_row` over the session. -/
def process_row_session (aiEnabled : Bool)
    (aiFix : Row → String → List String → Row × List String)
    (sess : Session) (row : Row) (rowIndex : Nat) (runId : String) :
    Except String (String × Session) :=
  let fa := auto_fix_row row
  match validate_row_lenient fa.1 with
  | .ok validated =>
    .ok (store_validated_session sess runId rowIndex (normalize_data validated) fa.2 row)
  | .error e =>
    if aiEnabled then
      let af := aiFix fa.1 e (row.map Prod.fst)
      match validate_row_lenient af.1 with
      | .ok validated =>
        .ok (store_validated_session sess runId rowIndex (normalize_data validated)
              (fa.2 ++ af.2) row)
      | .error _ => .error e
    else .error e

/-- The EFFECTIVE `CSVProcessor.log_error` (pipeline.py lines 634-644, the
later duplicate definition, which Python binds): add the error record AND
COMMIT IMMEDIATELY.  (The shadowed first definition at lines 536-546 only
adds without committing.) -/
def log_error (sess : Session) (runId : String) (rowIndex : Nat)
    (errorCode errorMessage : String) (raw : Row) : Session :=
  Session.commit
    { sess with
      pending := sess.pending ++
        [.insertErr ⟨runId, rowIndex, errorCode, errorMessage, jsonDumpsDefault raw⟩] }

/-- The per-batch outcome counters (`results` in `process_batch`). -/
structure BatchCounts where
  rows_inserted : Nat
  rows_updated : Nat
  rows_skipped : Nat
  rows_rejected : Nat
  errors_count : Nat
deriving Repr, DecidableEq

def zeroCounts : BatchCounts := ⟨0, 0, 0, 0, 0⟩

def addCounts (a b : BatchCounts) : BatchCounts :=
  ⟨a.rows_inserted + b.rows_inserted, a.rows_updated + b.rows_updated,
   a.rows_skipped + b.rows_skipped, a.rows_rejected + b.rows_rejected,
   a.errors_count + b.errors_count⟩

/-- One iteration of the `for index, row in batch_df.iterrows()` loop of
`process_batch` (pipeline.py lines 226-252).  The label carried with the
row is the pandas index label, which for the default `RangeIndex` is the
row's ABSOLUTE zero-based position in the file (preserved by `iloc`
slicing); the source adds `batch_start` to it.  A validation failure is
counted as rejected and logged; the pure embedding raises only
`ValidationError`, so the generic `except Exception` arm
(`PROCESSING_ERROR`) is unreachable here. -/
def batch_row_step (aiEnabled : Bool)
    (aiFix : Row → String → List String → Row × List String)
    (runId : String) (batchStart : Nat)
    (acc : BatchCounts × Session) (labeled : Nat × Row) : BatchCounts × Session :=
  let c := acc.1
  let actualIndex := batchStart + labeled.1
  match process_row_session aiEnabled aiFix acc.2 labeled.2 actualIndex runId with
  | .ok r =>
    if r.1 = "inserted" then ({ c with rows_inserted := c.rows_inserted + 1 }, r.2)
    else if r.1 = "updated" then ({ c with rows_updated := c.rows_updated + 1 }, r.2)
    else if r.1 = "skipped" then ({ c with rows_skipped := c.rows_skipped + 1 }, r.2)
    else (c, r.2)
  | .error e =>
    ({ c with rows_rejected := c.rows_rejected + 1,
              errors_count := c.errors_count + 1 },
     log_error acc.2 runId actualIndex "VALIDATION_ERROR" e labeled.2)

/-- `CSVProcessor.process_batch` (pipeline.py lines 214-263).
`faultAtCommit` injects a storage-layer fault at the final batch
`db.commit()` (an error OUTSIDE the per-row isolation boundary); the
handler then rolls back pending operations and re-raises. -/
def process_batch_session (aiEnabled : Bool)
    (aiFix : Row → String → List String → Row × List String)
    (faultAtCommit : Bool) (sess : Session) (batch : List (Nat × Row))
    (batchStart : Nat) (runId : String) : Except String BatchCounts × Session :=
  let r := batch.foldl (batch_row_step aiEnabled aiFix runId batchStart)
    (zeroCounts, sess)
  if faultAtCommit then (.error "storage fault during batch commit", r.2.rollback)
  else (.ok r.1, r.2.commit)

/-- The batch loop of `CSVProcessor.process_csv` (pipeline.py lines 54-63):
slices of 1000 labelled rows, per-batch counters summed into the run
totals.  A batch error propagates and aborts the run. -/
def process_csv_batches (aiEnabled : Bool)
    (aiFix : Row → String → List String → Row × List String)
    (sess : Session) (rows : List (Nat × Row)) (batchStart : Nat)
    (runId : String) : Except String (BatchCounts × Session) :=
  if rows = [] then .ok (zeroCounts, sess)
  else
    match process_batch_session aiEnabled aiFix false sess (rows.take 1000)
      batchStart runId with
    | (.ok bc, sess') =>
      match process_csv_batches aiEnabled aiFix sess' (rows.drop 1000)
        (batchStart + 1000) runId with
      | .ok p => .ok (addCounts bc p.1, p.2)
      | .error e => .error e
    | (.error e, _) => .error e
termination_by rows.length
decreasing_by
  simp only [List.length_drop]
  rename_i h
  have hl : 0 < rows.length := List.length_pos.mpr h
  omega

/-- The run-level result recorded on the `IngestRun`
(pipeline.py lines 45-52 and 65-75). -/
structure RunResult where
  total_rows : Nat
  rows_inserted : Nat
  rows_updated : Nat
  rows_skipped : Nat
  rows_rejected : Nat
  errors_count : Nat
  status : String
deriving Repr, DecidableEq

/-- The row-processing and finalization part of `CSVProcessor.process_csv`
(pipeline.py lines 45-77) for an already parsed file: the rows carry their
pandas labels (`List.enum`, the `RangeIndex` positions); after all batches
the run status is `completed` when no row was rejected, else
`partial_success`. -/
def process_csv_rows (aiEnabled : Bool)
    (aiFix : Row → String → List String → Row × List String)
    (sess : Session) (rows : List Row) (runId : String) :
    Except String (RunResult × Session) :=
  match process_csv_batches aiEnabled aiFix sess rows.enum 0 runId with
  | .ok p =>
    .ok ({ total_rows := rows.length,
           rows_inserted := p.1.rows_inserted,
           rows_updated := p.1.rows_updated,
           rows_skipped := p.1.rows_skipped,
           rows_rejected := p.1.rows_rejected,
           errors_count := p.1.errors_count,
           status := if p.1.rows_rejected = 0 then "completed" else "partial_success" },
         p.2)
  | .error e => .error e

/-! ## Shared lemmas about the dictionary model -/

set_option maxRecDepth 100000

theorem dictGet_cons (k' : String) (v' : PyVal) (d : Row) (k : String)
    (dflt : PyVal) :
    dictGet ((k', v') :: d) k dflt = if k' = k then v' else dictGet d k dflt := by
  by_cases h : k' = k
  · unfold dictGet
    rw [List.find?_cons_of_pos _ (by simpa using h)]
    simp [h]
  · unfold dictGet
    rw [List.find?_cons_of_neg _ (by simpa using h)]
    simp [h]

theorem dictHas_cons (k' : String) (v' : PyVal) (d : Row) (k : String) :
    dictHas ((k', v') :: d) k = ((k' == k) || dictHas d k) := by
  simp [dictHas]

theorem dictSet_cons (k' : String) (v' : PyVal) (d : Row) (k : String)
    (v : PyVal) :
    dictSet ((k', v') :: d) k v =
      if k' = k then (k, v) :: d else (k', v') :: dictSet d k v := by
  simp [dictSet]

theorem dictGet_dictSet_self (d : Row) (k : String) (v dflt : PyVal) :
    dictGet (dictSet d k v) k dflt = v := by
  induction d with
  | nil => simp [dictSet, dictGet]
  | cons p rest ih =>
    rcases p with ⟨k', v'⟩
    rw [dictSet_cons]
    by_cases h : k' = k
    · rw [if_pos h, dictGet_cons, if_pos rfl]
    · rw [if_neg h, dictGet_cons, if_neg h]
      exact ih

theorem dictGet_dictSet_ne (d : Row) (k k' : String) (v dflt : PyVal)
    (h : k' ≠ k) : dictGet (dictSet d k v) k' dflt = dictGet d k' dflt := by
  induction d with
  | nil =>
    show dictGet [(k, v)] k' dflt = dictGet [] k' dflt
    rw [dictGet_cons, if_neg (fun hh => h hh.symm)]
  | cons p rest ih =>
    rcases p with ⟨k0, v0⟩
    rw [dictSet_cons]
    by_cases hp : k0 = k
    · rw [if_pos hp, dictGet_cons, if_neg (fun hh => h hh.symm),
          dictGet_cons, hp, if_neg (fun hh => h hh.symm)]
    · rw [if_neg hp, dictGet_cons, dictGet_cons]
      by_cases hk : k0 = k'
      · rw [if_pos hk, if_pos hk]
      · rw [if_neg hk, if_neg hk]
        exact ih

theorem dictHas_dictSet_ne (d : Row) (k k' : String) (v : PyVal)
    (h : k' ≠ k) : dictHas (dictSet d k v) k' = dictHas d k' := by
  induction d with
  | nil =>
    show dictHas [(k, v)] k' = dictHas [] k'
    simp only [dictHas, List.any_cons, List.any_nil, Bool.or_false, beq_eq_false_iff_ne,
      ne_eq, beq_iff_eq]
    exact fun hh => h hh.symm
  | cons p rest ih =>
    rcases p with ⟨k0, v0⟩
    rw [dictSet_cons]
    by_cases hp : k0 = k
    · rw [if_pos hp, dictHas_cons, dictHas_cons, hp]
    · rw [if_neg hp, dictHas_cons, dictHas_cons]
      exact congrArg (fun b => (k0 == k') || b) ih

/-! ## Claim theorems -/

/-- C2: the identity hash is a pure function of exactly the eight identity
fields (email, name, phone, address, city, state, zip, country) of the
normalized row, a missing field contributing the empty string through
`data.get(key, "")`: two rows whose lookups agree on those eight keys give
the identical digest, whatever their key order and other columns. -/
theorem c2_fingerprint_depends_only_on_identity_fields (d1 d2 : Row)
    (h : ∀ k ∈ ["email", "name", "phone", "address", "city", "state", "zip",
                "country"],
      dictGet d1 k (.vstr "") = dictGet d2 k (.vstr "")) :
    generate_row_hash d1 = generate_row_hash d2 := by
  have hd : generate_row_hash_data d1 = generate_row_hash_data d2 := by
    simp only [generate_row_hash_data]
    rw [h "email" (by simp), h "name" (by simp), h "phone" (by simp),
        h "address" (by simp), h "city" (by simp), h "state" (by simp),
        h "zip" (by simp), h "country" (by simp)]
  unfold generate_row_hash
  rw [hd]

/-- Witness for C2: a row with reordered keys, an extra column, and the
phone explicitly empty rather than missing, hashes identically. -/
theorem c2_fingerprint_depends_only_on_identity_fields_witness :
    generate_row_hash [("name", PyVal.vstr "Ann"), ("email", PyVal.vstr "a@b.com")] =
      generate_row_hash [("email", PyVal.vstr "a@b.com"), ("phone", PyVal.vstr ""),
        ("name", PyVal.vstr "Ann"), ("plan", PyVal.vstr "Pro")] :=
  c2_fingerprint_depends_only_on_identity_fields _ _ (by decide)

/-- C3 (code bug): the claim says an error outside the per-row boundary
rolls the WHOLE batch back atomically, so no row outcome persists.  The
effective `log_error` (the later duplicate, pipeline.py line 644) commits
immediately — flushing the pending insert of row 0 along with the error
entry — so when the final batch commit faults, the rollback finds nothing
pending: the inserted record and the error entry remain committed while
the error propagates.  Concretely: a two-row batch (one valid row, one
invalid row) with a storage fault at the final commit ends with the
insert AND the error entry durably in the store. -/
theorem c3_batch_rollback_is_not_atomic :
    process_batch_session false fix_row_disabled true ⟨[], [], []⟩
        [(0, [("email", PyVal.vstr "good@x.com")]),
         (1, [("email", PyVal.vstr "bad")])] 0 "run1" =
      (.error "storage fault during batch commit",
       ⟨[⟨"fa45fddeded91ba77fddb8a389555ebec6ab0b3c15cf5adcf52b27cc710e4920",
          "run1", 0, "\x7b\"email\": \"good@x.com\"\x7d",
          "\x7b\"email\": \"good@x.com\"\x7d"⟩],
        [⟨"run1", 1, "VALIDATION_ERROR", "Invalid email format: \x27bad\x27",
          "\x7b\"email\": \"bad\"\x7d"⟩], []⟩) ∧
    ([⟨"fa45fddeded91ba77fddb8a389555ebec6ab0b3c15cf5adcf52b27cc710e4920",
       "run1", 0, "\x7b\"email\": \"good@x.com\"\x7d",
       "\x7b\"email\": \"good@x.com\"\x7d"⟩] : Store) ≠ [] :=
  ⟨rfl, by decide⟩

/-- C5 (code bug): the claim (and the docstring of the FIRST
`normalize_data`, pipeline.py lines 474-518) say state/country codes are
upper-cased and other strings only trimmed; but Python binds the later
duplicate `normalize_data` (lines 594-617), which lower-cases every
string field except `name`/`city`.  On `state = "Ca"`, `plan = "Pro Tier"`
the effective normalizer returns `"ca"` and `"pro tier"`, while the
shadowed definition returns the claimed `"CA"` and `"Pro Tier"`. -/
theorem c5_effective_normalizer_lowercases_state_and_passthrough :
    normalize_data [("email", PyVal.vstr "A@B.com"), ("state", PyVal.vstr "Ca"),
        ("plan", PyVal.vstr "Pro Tier")] =
      [("email", PyVal.vstr "a@b.com"), ("state", PyVal.vstr "ca"),
       ("plan", PyVal.vstr "pro tier")] ∧
    normalize_data_shadowed [("email", PyVal.vstr "A@B.com"),
        ("state", PyVal.vstr "Ca"), ("plan", PyVal.vstr "Pro Tier")] =
      [("email", PyVal.vstr "a@b.com"), ("state", PyVal.vstr "CA"),
       ("plan", PyVal.vstr "Pro Tier")] ∧
    ("ca" : String) ≠ "CA" :=
  ⟨rfl, rfl, by decide⟩

/-- C7 (code bug): `process_batch` computes
`actual_index = batch_start + index`, but the pandas label `index` yielded
by `iterrows()` over an `iloc` slice is ALREADY the absolute zero-based
position.  For a 1001-row file the second batch is the labelled slice
`[(1000, row)]` processed with `batch_start = 1000`, so the rejected row at
source position 1000 is logged with `row_index = 2000`, not 1000. -/
theorem c7_error_row_index_doubled_in_later_batches :
    ((List.replicate 1000 ([("email", PyVal.vstr "ok@x.com")] : Row) ++
        [[("email", PyVal.vstr "bad")]]).enum.drop 1000 =
      [(1000, [("email", PyVal.vstr "bad")])]) ∧
    ((process_batch_session false fix_row_disabled false ⟨[], [], []⟩
        [(1000, [("email", PyVal.vstr "bad")])] 1000 "run1").2.errors =
      [⟨"run1", 2000, "VALIDATION_ERROR", "Invalid email format: \x27bad\x27",
        "\x7b\"email\": \"bad\"\x7d"⟩]) ∧
    2000 ≠ 1000 :=
  ⟨rfl, rfl, by decide⟩

/-- Counterexample to C8 as stated: on `{email: "JohnDoe.example.com",
name: ""}` the auto-fix inserts `@` before `example` giving local part
`JohnDoe` (no dot), so the reconstructed email is `johndoe@example.com`
and the derived name is the single capitalized word `Johndoe` — not the
claimed `john.doe@example.com` and `John Doe`. -/
theorem c8_autofix_example_counterexample :
    (auto_fix_row [("email", PyVal.vstr "JohnDoe.example.com"),
        ("name", PyVal.vstr "")]).1 =
      [("email", PyVal.vstr "johndoe@example.com"),
       ("name", PyVal.vstr "Johndoe")] ∧
    PyVal.vstr "johndoe@example.com" ≠ PyVal.vstr "john.doe@example.com" ∧
    PyVal.vstr "Johndoe" ≠ PyVal.vstr "John Doe" :=
  ⟨rfl, by decide, by decide⟩

/-- C8 amended: on `{email: "JohnDoe.example.com", name: ""}` the auto-fix
reconstructs `johndoe@example.com` (inserting `@` before the last
dot-delimited segment preceding `.com`, then lower-casing), derives the
name `Johndoe` from the fixed email's local part, and the row is
`inserted` with the fingerprint computed over the normalized fields of the
validated row. -/
theorem c8_autofix_example_amended :
    process_row false fix_row_disabled []
        [("email", PyVal.vstr "JohnDoe.example.com"), ("name", PyVal.vstr "")]
        0 "run1" =
      .ok ("inserted",
        [⟨"4cc5794f06a6d603569e1323921b16856593e4d328f8fd671ede72cc35c61856",
          "run1", 0,
          "\x7b\"email\": \"johndoe@example.com\", \"name\": \"Johndoe\", \"first_name\": \"Johndoe\", \"last_name\": \"\", \"_fixes_applied\": [\"Fixed email: added @ symbol (JohnDoe.example.com -> JohnDoe@example.com)\", \"Normalized email to lowercase\", \"Extracted name from email: Johndoe\"]\x7d",
          "\x7b\"email\": \"JohnDoe.example.com\", \"name\": \"\"\x7d"⟩]) ∧
    generate_row_hash (normalize_data
        [("email", PyVal.vstr "johndoe@example.com"),
         ("name", PyVal.vstr "Johndoe")]) =
      "4cc5794f06a6d603569e1323921b16856593e4d328f8fd671ede72cc35c61856" :=
  ⟨rfl, rfl⟩

/-- Counterexample to C9 as stated: the pad/clear decision uses the LENGTH
of the cleaned remainder, which still contains `+`.  `"+123456"` has six
digits, so the claim says it is cleared to empty; the code sees a
7-character remainder and pads it to `"000+123456"`. -/
theorem c9_phone_plus_counterexample :
    dictGet (auto_fix_row [("email", PyVal.vstr "a@b.com"),
        ("phone", PyVal.vstr "+123456")]).1 "phone" (PyVal.vstr "") =
      PyVal.vstr "000+123456" ∧
    (keepDigits "+123456").toList.length = 6 ∧
    PyVal.vstr "000+123456" ≠ PyVal.vstr "" :=
  ⟨rfl, rfl, by decide⟩

/-- Counterexample to C6 as stated: lenient validation does NOT leave every
non-email field untouched — a present phone is reduced to digits/`+`
(`"555-1234"` becomes `"5551234"`). -/
theorem c6_validation_touches_phone_counterexample :
    validate_row_lenient [("email", PyVal.vstr "a@b.com"),
        ("phone", PyVal.vstr "555-1234")] =
      .ok [("email", PyVal.vstr "a@b.com"), ("phone", PyVal.vstr "5551234")] ∧
    PyVal.vstr "5551234" ≠ PyVal.vstr "555-1234" :=
  ⟨rfl, by decide⟩

/-! ## Lemmas about the store and the upsert decision (for the
fingerprint-classification property) -/

theorem replaceFirstByHash_map_hash (h run norm : String) (s : Store) :
    (replaceFirstByHash h run norm s).map DataRow.row_hash =
      s.map DataRow.row_hash := by
  induction s with
  | nil => rfl
  | cons r rs ih =>
    by_cases hr : r.row_hash = h
    · simp [replaceFirstByHash, hr]
    · simp [replaceFirstByHash, hr, ih]

theorem find?_replaceFirstByHash (h run norm : String) (s : Store) (ex : DataRow)
    (hf : s.find? (fun r => r.row_hash == h) = some ex) :
    (replaceFirstByHash h run norm s).find? (fun r => r.row_hash == h) =
      some { ex with run_id := run, normalized_data := norm } := by
  induction s with
  | nil => simp at hf
  | cons r rs ih =>
    by_cases hr : r.row_hash = h
    · rw [List.find?_cons_of_pos _ (by simp [hr])] at hf
      injection hf with hf
      subst hf
      simp only [replaceFirstByHash, beq_iff_eq, hr, if_true]
      rw [List.find?_cons_of_pos _ (by simp [hr])]
    · rw [List.find?_cons_of_neg _ (by simpa using hr)] at hf
      simp only [replaceFirstByHash, beq_iff_eq, hr, if_false]
      rw [List.find?_cons_of_neg _ (by simpa using hr)]
      exact ih hf

theorem store_validated_insert_eq (store : Store) (runId : String)
    (rowIndex : Nat) (normalized : Row) (fixes : List String) (raw : Row)
    (hfind : store.find? (fun r => r.row_hash == generate_row_hash normalized) = none) :
    store_validated store runId rowIndex normalized fixes raw =
      ("inserted", store ++
        [⟨generate_row_hash normalized, runId, rowIndex,
          jsonDumpsDefault (if fixes ≠ [] then
            dictSet normalized "_fixes_applied" (.vlist fixes) else normalized),
          jsonDumpsDefault raw⟩]) := by
  simp only [store_validated, hfind]

theorem store_validated_skip_eq (store : Store) (runId : String)
    (rowIndex : Nat) (normalized : Row) (fixes : List String) (raw : Row)
    (ex : DataRow)
    (hfind : store.find? (fun r => r.row_hash == generate_row_hash normalized) = some ex)
    (hrun : ex.run_id = runId) :
    store_validated store runId rowIndex normalized fixes raw = ("skipped", store) := by
  simp only [store_validated, hfind, hrun, beq_self_eq_true, if_true]

theorem store_validated_update_eq (store : Store) (runId : String)
    (rowIndex : Nat) (normalized : Row) (fixes : List String) (raw : Row)
    (ex : DataRow)
    (hfind : store.find? (fun r => r.row_hash == generate_row_hash normalized) = some ex)
    (hrun : ex.run_id ≠ runId) :
    store_validated store runId rowIndex normalized fixes raw =
      ("updated",
       replaceFirstByHash (generate_row_hash normalized) runId
         (jsonDumpsDefault (if fixes ≠ [] then
           dictSet normalized "_fixes_applied" (.vlist fixes) else normalized))
         store) := by
  have hb : (ex.run_id == runId) = false := by simpa using hrun
  simp [store_validated, hfind, hb]

/-- The fingerprints stored after a decision: an insert appends the new
fingerprint, a skip or update leaves the fingerprint list unchanged. -/
theorem store_validated_snd_map_hash (store : Store) (runId : String)
    (rowIndex : Nat) (normalized : Row) (fixes : List String) (raw : Row) :
    (store_validated store runId rowIndex normalized fixes raw).2.map DataRow.row_hash =
      (if store.find? (fun r => r.row_hash == generate_row_hash normalized) = none
       then store.map DataRow.row_hash ++ [generate_row_hash normalized]
       else store.map DataRow.row_hash) := by
  cases hfind : store.find? (fun r => r.row_hash == generate_row_hash normalized) with
  | none =>
    rw [store_validated_insert_eq _ _ _ _ _ _ hfind, if_pos rfl]
    simp
  | some ex =>
    rw [if_neg (by simp [hfind])]
    by_cases hrun : ex.run_id = runId
    · rw [store_validated_skip_eq _ _ _ _ _ _ ex hfind hrun]
    · rw [store_validated_update_eq _ _ _ _ _ _ ex hfind hrun]
      exact replaceFirstByHash_map_hash _ _ _ _

/-- C1: the store decision of a processed row is classified by its identity
fingerprint.  With no stored record carrying the fingerprint the outcome is
`inserted` and a new record is appended; with a record owned by the same
run the outcome is `skipped` and the store is untouched; with a record
owned by a different run the outcome is `updated` and that record's
content and owning run are overwritten in place (latest run wins).  In
every case, a store whose fingerprints are distinct keeps them distinct
and ends with EXACTLY ONE record carrying this fingerprint — ingesting the
same canonical identity twice never yields two stored records. -/
theorem c1_store_decision_by_fingerprint (store : Store) (runId : String)
    (rowIndex : Nat) (normalized : Row) (fixes : List String) (raw : Row)
    (hu : (store.map DataRow.row_hash).Nodup) :
    (store.find? (fun r => r.row_hash == generate_row_hash normalized) = none →
      store_validated store runId rowIndex normalized fixes raw =
        ("inserted", store ++
          [⟨generate_row_hash normalized, runId, rowIndex,
            jsonDumpsDefault (if fixes ≠ [] then
              dictSet normalized "_fixes_applied" (.vlist fixes) else normalized),
            jsonDumpsDefault raw⟩])) ∧
    (∀ ex, store.find? (fun r => r.row_hash == generate_row_hash normalized) = some ex →
      ex.run_id = runId →
      store_validated store runId rowIndex normalized fixes raw = ("skipped", store)) ∧
    (∀ ex, store.find? (fun r => r.row_hash == generate_row_hash normalized) = some ex →
      ex.run_id ≠ runId →
      (store_validated store runId rowIndex normalized fixes raw).1 = "updated" ∧
      (store_validated store runId rowIndex normalized fixes raw).2.find?
          (fun r => r.row_hash == generate_row_hash normalized) =
        some { ex with run_id := runId,
                       normalized_data := jsonDumpsDefault (if fixes ≠ [] then
                         dictSet normalized "_fixes_applied" (.vlist fixes)
                         else normalized) } ∧
      (store_validated store runId rowIndex normalized fixes raw).2.map DataRow.row_hash =
        store.map DataRow.row_hash) ∧
    ((store_validated store runId rowIndex normalized fixes raw).2.map
        DataRow.row_hash).Nodup ∧
    ((store_validated store runId rowIndex normalized fixes raw).2.map
        DataRow.row_hash).count (generate_row_hash normalized) = 1 := by
  set g := generate_row_hash normalized with hg
  have hnotmem : store.find? (fun r => r.row_hash == g) = none →
      g ∉ store.map DataRow.row_hash := by
    intro hfind hmem
    obtain ⟨r, hr, hrh⟩ := List.mem_map.mp hmem
    have hne := List.find?_eq_none.mp hfind r hr
    simp [hrh] at hne
  have hmem : ∀ ex, store.find? (fun r => r.row_hash == g) = some ex →
      g ∈ store.map DataRow.row_hash := by
    intro ex hfind
    have h1 : ex ∈ store := List.mem_of_find?_eq_some hfind
    have h2 := List.find?_some hfind
    exact List.mem_map.mpr ⟨ex, h1, by simpa using h2⟩
  refine ⟨fun hfind => store_validated_insert_eq _ _ _ _ _ _ hfind,
          fun ex hfind hrun => store_validated_skip_eq _ _ _ _ _ _ ex hfind hrun,
          fun ex hfind hrun => ?_, ?_, ?_⟩
  · rw [store_validated_update_eq _ _ _ _ _ _ ex hfind hrun]
    exact ⟨rfl, find?_replaceFirstByHash _ _ _ _ _ hfind,
           replaceFirstByHash_map_hash _ _ _ _⟩
  · rw [store_validated_snd_map_hash]
    cases hfind : store.find? (fun r => r.row_hash == g) with
    | none =>
      rw [if_pos rfl, List.nodup_append]
      refine ⟨hu, List.nodup_singleton _, ?_⟩
      intro a ha hb
      rw [List.mem_singleton] at hb
      rw [hb] at ha
      exact hnotmem hfind ha
    | some ex =>
      rw [if_neg (by simp)]
      exact hu
  · rw [store_validated_snd_map_hash]
    cases hfind : store.find? (fun r => r.row_hash == g) with
    | none =>
      rw [if_pos rfl, List.count_append, List.count_eq_zero.mpr (hnotmem hfind)]
      simp [List.count_cons]
    | some ex =>
      rw [if_neg (by simp)]
      exact List.count_eq_one_of_mem hu (hmem ex hfind)

/-- Witness for C1: the three store decisions at concrete inputs — insert
into an empty store, skip when the fingerprint's record is owned by the
same run, update when it is owned by a different run. -/
theorem c1_store_decision_by_fingerprint_witness :
    store_validated [] "runB" 3 [("email", PyVal.vstr "x@y.com")] [] [] =
      ("inserted",
       [⟨generate_row_hash [("email", PyVal.vstr "x@y.com")], "runB", 3,
         jsonDumpsDefault [("email", PyVal.vstr "x@y.com")], jsonDumpsDefault []⟩]) ∧
    store_validated
        [⟨generate_row_hash [("email", PyVal.vstr "x@y.com")], "runB", 0, "N", "R"⟩]
        "runB" 3 [("email", PyVal.vstr "x@y.com")] [] [] =
      ("skipped",
       [⟨generate_row_hash [("email", PyVal.vstr "x@y.com")], "runB", 0, "N", "R"⟩]) ∧
    (store_validated
        [⟨generate_row_hash [("email", PyVal.vstr "x@y.com")], "runA", 0, "N", "R"⟩]
        "runB" 3 [("email", PyVal.vstr "x@y.com")] [] []).1 = "updated" := by
  refine ⟨?_, ?_, ?_⟩
  · have h1 := (c1_store_decision_by_fingerprint [] "runB" 3
      [("email", PyVal.vstr "x@y.com")] [] [] List.nodup_nil).1 rfl
    rw [List.nil_append] at h1
    exact h1
  · exact (c1_store_decision_by_fingerprint
      [⟨generate_row_hash [("email", PyVal.vstr "x@y.com")], "runB", 0, "N", "R"⟩]
      "runB" 3 [("email", PyVal.vstr "x@y.com")] [] []
      (List.nodup_singleton _)).2.1
      ⟨generate_row_hash [("email", PyVal.vstr "x@y.com")], "runB", 0, "N", "R"⟩
      (List.find?_cons_of_pos _ (beq_self_eq_true _)) rfl
  · exact ((c1_store_decision_by_fingerprint
      [⟨generate_row_hash [("email", PyVal.vstr "x@y.com")], "runA", 0, "N", "R"⟩]
      "runB" 3 [("email", PyVal.vstr "x@y.com")] [] []
      (List.nodup_singleton _)).2.2.1
      ⟨generate_row_hash [("email", PyVal.vstr "x@y.com")], "runA", 0, "N", "R"⟩
      (List.find?_cons_of_pos _ (beq_self_eq_true _)) (by decide)).1

/-- C4: the error flow of the two-stage repair.  With the AI collaborator
disabled, the result never depends on the fixer and the original
validation error is surfaced.  With it enabled, if re-validation of the
AI-fixed row fails, the ORIGINAL pre-AI error is propagated (never the AI
attempt's); if re-validation succeeds, the validated AI-fixed row is the
one normalized and stored, with the AI fix log appended. -/
theorem c4_ai_repair_error_flow
    (aiFix : Row → String → List String → Row × List String)
    (store : Store) (row : Row) (rowIndex : Nat) (runId : String) :
    (∀ g g', process_row false g store row rowIndex runId =
             process_row false g' store row rowIndex runId) ∧
    (∀ e, validate_row_lenient (auto_fix_row row).1 = .error e →
       process_row false aiFix store row rowIndex runId = .error e) ∧
    (∀ e e2, validate_row_lenient (auto_fix_row row).1 = .error e →
       validate_row_lenient (aiFix (auto_fix_row row).1 e (row.map Prod.fst)).1 =
         .error e2 →
       process_row true aiFix store row rowIndex runId = .error e) ∧
    (∀ e v, validate_row_lenient (auto_fix_row row).1 = .error e →
       validate_row_lenient (aiFix (auto_fix_row row).1 e (row.map Prod.fst)).1 =
         .ok v →
       process_row true aiFix store row rowIndex runId =
         .ok (store_validated store runId rowIndex (normalize_data v)
               ((auto_fix_row row).2 ++
                (aiFix (auto_fix_row row).1 e (row.map Prod.fst)).2) row)) := by
  refine ⟨?_, ?_, ?_, ?_⟩
  · intro g g'
    cases hv : validate_row_lenient (auto_fix_row row).1 with
    | ok v => simp [process_row, hv]
    | error e => simp [process_row, hv]
  · intro e hv
    simp [process_row, hv]
  · intro e e2 hv hv2
    simp [process_row, hv, hv2]
  · intro e v hv hok
    simp [process_row, hv, hok]

/-- Witness for C4: the invalid row `{email: "bad"}` is rejected with the
original error both with the collaborator disabled and when the AI attempt
also fails; a fixer returning a valid row leads to the fixed row being
stored. -/
theorem c4_ai_repair_error_flow_witness :
    process_row false fix_row_disabled [] [("email", PyVal.vstr "bad")] 0 "r1" =
      .error "Invalid email format: \x27bad\x27" ∧
    process_row true fix_row_disabled [] [("email", PyVal.vstr "bad")] 0 "r1" =
      .error "Invalid email format: \x27bad\x27" ∧
    process_row true
        (fun _ _ _ => ([("email", PyVal.vstr "fixed@x.com")], ["AI fixed email"]))
        [] [("email", PyVal.vstr "bad")] 0 "r1" =
      .ok (store_validated [] "r1" 0
            (normalize_data [("email", PyVal.vstr "fixed@x.com")])
            ((auto_fix_row [("email", PyVal.vstr "bad")]).2 ++ ["AI fixed email"])
            [("email", PyVal.vstr "bad")]) := by
  refine ⟨?_, ?_, ?_⟩
  · exact (c4_ai_repair_error_flow fix_row_disabled [] [("email", PyVal.vstr "bad")]
      0 "r1").2.1 _ rfl
  · exact (c4_ai_repair_error_flow fix_row_disabled [] [("email", PyVal.vstr "bad")]
      0 "r1").2.2.1 _ _ rfl rfl
  · exact (c4_ai_repair_error_flow
      (fun _ _ _ => ([("email", PyVal.vstr "fixed@x.com")], ["AI fixed email"]))
      [] [("email", PyVal.vstr "bad")] 0 "r1").2.2.2 _ _ rfl rfl

/-! ## Counting lemmas for the run-level counters -/

def countsTotal (c : BatchCounts) : Nat :=
  c.rows_inserted + c.rows_updated + c.rows_skipped + c.rows_rejected

theorem store_validated_session_outcome (sess : Session) (runId : String)
    (rowIndex : Nat) (normalized : Row) (fixes : List String) (raw : Row) :
    (store_validated_session sess runId rowIndex normalized fixes raw).1 = "inserted" ∨
    (store_validated_session sess runId rowIndex normalized fixes raw).1 = "updated" ∨
    (store_validated_session sess runId rowIndex normalized fixes raw).1 = "skipped" := by
  simp only [store_validated_session]
  cases hfind : sess.flushedRows.find?
      (fun r => r.row_hash == generate_row_hash normalized) with
  | none => left; rfl
  | some ex =>
    by_cases hrun : ex.run_id = runId
    · right; right; simp [hrun]
    · right; left; simp [hrun]

theorem process_row_session_ok_outcome (ai : Bool)
    (aif : Row → String → List String → Row × List String)
    (sess : Session) (row : Row) (i : Nat) (run : String)
    (p : String × Session)
    (h : process_row_session ai aif sess row i run = .ok p) :
    p.1 = "inserted" ∨ p.1 = "updated" ∨ p.1 = "skipped" := by
  simp only [process_row_session] at h
  split at h
  · injection h with h
    subst h
    exact store_validated_session_outcome _ _ _ _ _ _
  · split at h
    · split at h
      · injection h with h
        subst h
        exact store_validated_session_outcome _ _ _ _ _ _
      · simp at h
    · simp at h

theorem batch_row_step_total (ai : Bool)
    (aif : Row → String → List String → Row × List String)
    (runId : String) (bs : Nat) (acc : BatchCounts × Session) (x : Nat × Row) :
    countsTotal (batch_row_step ai aif runId bs acc x).1 =
      countsTotal acc.1 + 1 := by
  simp only [batch_row_step]
  cases hres : process_row_session ai aif acc.2 x.2 (bs + x.1) runId with
  | ok r =>
    rcases process_row_session_ok_outcome _ _ _ _ _ _ _ hres with h1 | h1 | h1 <;>
      simp [h1, countsTotal] <;> omega
  | error e => simp [countsTotal]; omega

theorem batch_fold_total (ai : Bool)
    (aif : Row → String → List String → Row × List String)
    (runId : String) (bs : Nat) :
    ∀ (batch : List (Nat × Row)) (acc : BatchCounts × Session),
      countsTotal (batch.foldl (batch_row_step ai aif runId bs) acc).1 =
        countsTotal acc.1 + batch.length := by
  intro batch
  induction batch with
  | nil => intro acc; simp
  | cons x xs ih =>
    intro acc
    rw [List.foldl_cons, ih, batch_row_step_total]
    simp only [List.length_cons]
    omega

theorem countsTotal_add (a b : BatchCounts) :
    countsTotal (addCounts a b) = countsTotal a + countsTotal b := by
  simp only [countsTotal, addCounts]
  omega

theorem csv_batches_total (ai : Bool)
    (aif : Row → String → List String → Row × List String) (runId : String) :
    ∀ (n : Nat) (rows : List (Nat × Row)), rows.length ≤ n →
    ∀ (sess : Session) (bs : Nat) (bc : BatchCounts) (s' : Session),
      process_csv_batches ai aif sess rows bs runId = .ok (bc, s') →
      countsTotal bc = rows.length := by
  intro n
  induction n with
  | zero =>
    intro rows hlen sess bs bc s' h
    have hr : rows = [] := List.eq_nil_of_length_eq_zero (Nat.le_zero.mp hlen)
    subst hr
    unfold process_csv_batches at h
    rw [if_pos rfl] at h
    injection h with h
    injection h with h1 h2
    subst h1
    rfl
  | succ n ih =>
    intro rows hlen sess bs bc s' h
    by_cases hr : rows = []
    · subst hr
      unfold process_csv_batches at h
      rw [if_pos rfl] at h
      injection h with h
      injection h with h1 h2
      subst h1
      rfl
    · unfold process_csv_batches at h
      rw [if_neg hr] at h
      have hb : process_batch_session ai aif false sess (rows.take 1000) bs runId =
          (.ok ((rows.take 1000).foldl (batch_row_step ai aif runId bs)
                  (zeroCounts, sess)).1,
           ((rows.take 1000).foldl (batch_row_step ai aif runId bs)
                  (zeroCounts, sess)).2.commit) := by
        simp [process_batch_session]
      rw [hb] at h
      dsimp only at h
      cases hrec : process_csv_batches ai aif
          ((rows.take 1000).foldl (batch_row_step ai aif runId bs)
            (zeroCounts, sess)).2.commit
          (rows.drop 1000) (bs + 1000) runId with
      | error e => rw [hrec] at h; simp at h
      | ok p =>
        rw [hrec] at h
        injection h with h
        injection h with h1 h2
        subst h1
        have hdroplen : (rows.drop 1000).length ≤ n := by
          have hpos : 0 < rows.length := List.length_pos.mpr hr
          simp only [List.length_drop]
          omega
        have hrecp : process_csv_batches ai aif
            ((rows.take 1000).foldl (batch_row_step ai aif runId bs)
              (zeroCounts, sess)).2.commit
            (rows.drop 1000) (bs + 1000) runId = .ok (p.1, p.2) := by
          rw [hrec]
        have h2 := ih (rows.drop 1000) hdroplen _ _ _ _ hrecp
        have h1 := batch_fold_total ai aif runId bs (rows.take 1000)
          (zeroCounts, sess)
        have hz : countsTotal (zeroCounts, sess).1 = 0 := rfl
        have ht : (rows.take 1000).length = min 1000 rows.length :=
          List.length_take _ _
        have hd : (rows.drop 1000).length = rows.length - 1000 :=
          List.length_drop _ _
        rw [countsTotal_add]
        omega

/-- C10: whenever the row-processing pipeline finishes all batches with an
`ok` result, the recorded counters satisfy
`total = inserted + updated + skipped + rejected` — every parsed row lands
in exactly one outcome counter — and the run status is `completed` exactly
when no row was rejected (else `partial_success`). -/
theorem c10_run_counters_balance (aiEnabled : Bool)
    (aiFix : Row → String → List String → Row × List String)
    (sess : Session) (rows : List Row) (runId : String)
    (res : RunResult) (sess' : Session)
    (h : process_csv_rows aiEnabled aiFix sess rows runId = .ok (res, sess')) :
    res.total_rows = res.rows_inserted + res.rows_updated + res.rows_skipped +
      res.rows_rejected ∧
    (res.status = "completed" ↔ res.rows_rejected = 0) := by
  unfold process_csv_rows at h
  cases hb : process_csv_batches aiEnabled aiFix sess rows.enum 0 runId with
  | error e => rw [hb] at h; simp at h
  | ok p =>
    rw [hb] at h
    injection h with h
    injection h with h1 h2
    subst h1
    have hbp : process_csv_batches aiEnabled aiFix sess rows.enum 0 runId =
        .ok (p.1, p.2) := by rw [hb]
    have htot := csv_batches_total aiEnabled aiFix runId rows.enum.length
      rows.enum (le_refl _) sess 0 p.1 p.2 hbp
    rw [List.enum_length] at htot
    constructor
    · simpa [countsTotal] using htot.symm
    · by_cases hz : p.1.rows_rejected = 0
      · simp [hz]
      · simp only [if_neg hz]
        constructor
        · intro hcon
          exact absurd hcon (by decide)
        · intro hcon
          exact absurd hcon hz

/-- Witness for C10: a one-row run that inserts its single valid row ends
`completed` with balanced counters. -/
theorem c10_run_counters_balance_witness :
    (1 : Nat) = 1 + 0 + 0 + 0 ∧ (("completed" : String) = "completed" ↔ (0 : Nat) = 0) := by
  have hb2 : process_csv_batches false fix_row_disabled ⟨[], [], []⟩
      ([[("email", PyVal.vstr "good@x.com")]] : List Row).enum 0 "runA" =
      .ok (⟨1, 0, 0, 0, 0⟩,
        ⟨[⟨"fa45fddeded91ba77fddb8a389555ebec6ab0b3c15cf5adcf52b27cc710e4920",
           "runA", 0, "\x7b\"email\": \"good@x.com\"\x7d",
           "\x7b\"email\": \"good@x.com\"\x7d"⟩], [], []⟩) := by
    rw [process_csv_batches.eq_def]
    rw [if_neg (by decide)]
    rw [show process_batch_session false fix_row_disabled false ⟨[], [], []⟩
        (([[("email", PyVal.vstr "good@x.com")]] : List Row).enum.take 1000) 0 "runA" =
        (.ok ⟨1, 0, 0, 0, 0⟩,
         ⟨[⟨"fa45fddeded91ba77fddb8a389555ebec6ab0b3c15cf5adcf52b27cc710e4920",
            "runA", 0, "\x7b\"email\": \"good@x.com\"\x7d",
            "\x7b\"email\": \"good@x.com\"\x7d"⟩], [], []⟩) from rfl]
    dsimp only
    rw [process_csv_batches.eq_def]
    rw [if_pos (show List.drop 1000
      ([[("email", PyVal.vstr "good@x.com")]] : List Row).enum = [] from by decide)]
    rfl
  have hrun : process_csv_rows false fix_row_disabled ⟨[], [], []⟩
      [[("email", PyVal.vstr "good@x.com")]] "runA" =
      .ok ({ total_rows := 1, rows_inserted := 1, rows_updated := 0,
             rows_skipped := 0, rows_rejected := 0, errors_count := 0,
             status := "completed" },
           ⟨[⟨"fa45fddeded91ba77fddb8a389555ebec6ab0b3c15cf5adcf52b27cc710e4920",
              "runA", 0, "\x7b\"email\": \"good@x.com\"\x7d",
              "\x7b\"email\": \"good@x.com\"\x7d"⟩], [], []⟩) := by
    unfold process_csv_rows
    rw [hb2]
    rfl
  exact c10_run_counters_balance false fix_row_disabled ⟨[], [], []⟩
    [[("email", PyVal.vstr "good@x.com")]] "runA"
    { total_rows := 1, rows_inserted := 1, rows_updated := 0, rows_skipped := 0,
      rows_rejected := 0, errors_count := 0, status := "completed" }
    ⟨[⟨"fa45fddeded91ba77fddb8a389555ebec6ab0b3c15cf5adcf52b27cc710e4920",
       "runA", 0, "\x7b\"email\": \"good@x.com\"\x7d",
       "\x7b\"email\": \"good@x.com\"\x7d"⟩], [], []⟩ hrun

/-! ## Shape lemmas for the auto-fix blocks (each block either leaves the
row unchanged or writes one specific key, and only ever appends to the fix
log) -/

theorem auto_fix_email_shape (rd : Row) (fixes : List String) :
    (auto_fix_email rd fixes).1 = rd ∨
    ∃ s, (auto_fix_email rd fixes).1 = dictSet rd "email" (PyVal.vstr s) := by
  unfold auto_fix_email
  by_cases h : dictHas rd "email" = true
  · rw [if_pos h]
    right
    exact ⟨_, rfl⟩
  · rw [if_neg h]
    left
    rfl

theorem auto_fix_email_fixes (rd : Row) (fixes : List String) :
    ∃ t, (auto_fix_email rd fixes).2 = fixes ++ t := by
  simp only [auto_fix_email]
  repeat' split
  all_goals first
    | exact ⟨_, rfl⟩
    | exact ⟨_, List.append_assoc _ _ _⟩
    | exact ⟨[], (List.append_nil _).symm⟩

theorem auto_fix_name_shape (rd : Row) (fixes : List String) :
    (auto_fix_name rd fixes).1 = rd ∨
    ∃ s, (auto_fix_name rd fixes).1 = dictSet rd "name" (PyVal.vstr s) := by
  simp only [auto_fix_name]
  repeat' split
  all_goals first
    | exact Or.inl rfl
    | exact Or.inr ⟨_, rfl⟩

theorem auto_fix_name_fixes (rd : Row) (fixes : List String) :
    ∃ t, (auto_fix_name rd fixes).2 = fixes ++ t := by
  simp only [auto_fix_name]
  repeat' split
  all_goals first
    | exact ⟨_, rfl⟩
    | exact ⟨[], (List.append_nil _).symm⟩

theorem auto_fix_scan_shape (rd : Row) (fixes : List String) :
    (auto_fix_scan rd fixes).1 = rd ∨
    ∃ s, (auto_fix_scan rd fixes).1 = dictSet rd "email" (PyVal.vstr s) := by
  simp only [auto_fix_scan]
  repeat' split
  all_goals first
    | exact Or.inl rfl
    | exact Or.inr ⟨_, rfl⟩

theorem auto_fix_scan_fixes (rd : Row) (fixes : List String) :
    ∃ t, (auto_fix_scan rd fixes).2 = fixes ++ t := by
  simp only [auto_fix_scan]
  repeat' split
  all_goals first
    | exact ⟨_, rfl⟩
    | exact ⟨[], (List.append_nil _).symm⟩

theorem auto_fix_email_phone_lookup (rd : Row) (fixes : List String)
    (dflt : PyVal) :
    dictGet (auto_fix_email rd fixes).1 "phone" dflt = dictGet rd "phone" dflt := by
  rcases auto_fix_email_shape rd fixes with h | ⟨s, h⟩ <;> rw [h]
  exact dictGet_dictSet_ne _ _ _ _ _ (by decide)

theorem auto_fix_email_phone_has (rd : Row) (fixes : List String) :
    dictHas (auto_fix_email rd fixes).1 "phone" = dictHas rd "phone" := by
  rcases auto_fix_email_shape rd fixes with h | ⟨s, h⟩ <;> rw [h]
  exact dictHas_dictSet_ne _ _ _ _ (by decide)

theorem auto_fix_name_phone_lookup (rd : Row) (fixes : List String)
    (dflt : PyVal) :
    dictGet (auto_fix_name rd fixes).1 "phone" dflt = dictGet rd "phone" dflt := by
  rcases auto_fix_name_shape rd fixes with h | ⟨s, h⟩ <;> rw [h]
  exact dictGet_dictSet_ne _ _ _ _ _ (by decide)

theorem auto_fix_scan_phone_lookup (rd : Row) (fixes : List String)
    (dflt : PyVal) :
    dictGet (auto_fix_scan rd fixes).1 "phone" dflt = dictGet rd "phone" dflt := by
  rcases auto_fix_scan_shape rd fixes with h | ⟨s, h⟩ <;> rw [h]
  exact dictGet_dictSet_ne _ _ _ _ _ (by decide)

/-- The three branches of the phone auto-fix block, decided by the LENGTH
of the digits-and-`+` remainder (pipeline.py lines 369-387). -/
theorem auto_fix_phone_spec (rd : Row) (fixes : List String) (p : String)
    (hhas : dictHas rd "phone" = true)
    (hget : dictGet rd "phone" (PyVal.vstr "") = PyVal.vstr p)
    (hne : pyStrip p ≠ "")
    (hnv : nullVariants.contains (pyStrip p) = false) :
    (7 ≤ (keepDigitsPlus (pyStrip p)).toList.length →
      (keepDigitsPlus (pyStrip p)).toList.length < 10 →
      auto_fix_phone rd fixes =
        (dictSet rd "phone" (PyVal.vstr ("000" ++ keepDigitsPlus (pyStrip p))),
         fixes ++ ["Phone number padded with placeholder area code (" ++
           pyStrip p ++ " -> " ++ ("000" ++ keepDigitsPlus (pyStrip p)) ++ ")"])) ∧
    ((keepDigitsPlus (pyStrip p)).toList.length < 7 →
      auto_fix_phone rd fixes =
        (dictSet rd "phone" (PyVal.vstr ""),
         fixes ++ ["Phone number too short, cleared (" ++ pyStrip p ++ ")"])) ∧
    (10 ≤ (keepDigitsPlus (pyStrip p)).toList.length →
      auto_fix_phone rd fixes =
        (dictSet rd "phone" (PyVal.vstr (keepDigitsPlus (pyStrip p))), fixes)) := by
  unfold auto_fix_phone
  rw [if_pos hhas, hget]
  simp only [pyStr]
  rw [if_pos (show (decide (pyStrip p ≠ "") &&
      !nullVariants.contains (pyStrip p)) = true by
    rw [Bool.and_eq_true, decide_eq_true_eq, hnv]
    exact ⟨hne, rfl⟩)]
  refine ⟨?_, ?_, ?_⟩
  · intro h1 h2
    rw [if_pos (show (decide ((keepDigitsPlus (pyStrip p)).toList.length < 10) &&
        decide ((keepDigitsPlus (pyStrip p)).toList.length ≥ 7)) = true by
      rw [Bool.and_eq_true, decide_eq_true_eq, decide_eq_true_eq]
      exact ⟨h2, h1⟩)]
  · intro h1
    rw [if_neg (show ¬(decide ((keepDigitsPlus (pyStrip p)).toList.length < 10) &&
        decide ((keepDigitsPlus (pyStrip p)).toList.length ≥ 7)) = true by
      rw [Bool.and_eq_true, decide_eq_true_eq, decide_eq_true_eq]
      rintro ⟨_, hb⟩
      omega)]
    rw [if_pos h1]
  · intro h1
    rw [if_neg (show ¬(decide ((keepDigitsPlus (pyStrip p)).toList.length < 10) &&
        decide ((keepDigitsPlus (pyStrip p)).toList.length ≥ 7)) = true by
      rw [Bool.and_eq_true, decide_eq_true_eq, decide_eq_true_eq]
      rintro ⟨ha, _⟩
      omega)]
    rw [if_neg (show ¬(keepDigitsPlus (pyStrip p)).toList.length < 7 by omega)]

theorem auto_fix_row_phone_lookup (row : Row) (dflt : PyVal) :
    dictGet (auto_fix_row row).1 "phone" dflt =
      dictGet (auto_fix_phone (auto_fix_email row []).1
        (auto_fix_email row []).2).1 "phone" dflt := by
  simp only [auto_fix_row]
  rw [auto_fix_scan_phone_lookup, auto_fix_name_phone_lookup]

theorem auto_fix_row_keeps_phone_fix (row : Row) (x : String)
    (hx : x ∈ (auto_fix_phone (auto_fix_email row []).1
      (auto_fix_email row []).2).2) :
    x ∈ (auto_fix_row row).2 := by
  simp only [auto_fix_row]
  obtain ⟨t2, ht2⟩ := auto_fix_scan_fixes
    (auto_fix_name (auto_fix_phone (auto_fix_email row []).1
      (auto_fix_email row []).2).1
      (auto_fix_phone (auto_fix_email row []).1 (auto_fix_email row []).2).2).1
    (auto_fix_name (auto_fix_phone (auto_fix_email row []).1
      (auto_fix_email row []).2).1
      (auto_fix_phone (auto_fix_email row []).1 (auto_fix_email row []).2).2).2
  rw [ht2]
  apply List.mem_append_left
  obtain ⟨t1, ht1⟩ := auto_fix_name_fixes
    (auto_fix_phone (auto_fix_email row []).1 (auto_fix_email row []).2).1
    (auto_fix_phone (auto_fix_email row []).1 (auto_fix_email row []).2).2
  rw [ht1]
  exact List.mem_append_left _ hx

/-- C9 amended: for every row whose phone value is a string that strips to
a non-empty, non-null-like value, auto-fix keeps only digits and `+`; the
pad/clear decision is by the LENGTH of that remainder (which counts
retained `+` characters, not just digits): length 7-9 is left-padded with
the `000` placeholder and a low-confidence fix description is recorded,
length below 7 clears the phone to empty, length 10 or more is left
unpadded. -/
theorem c9_phone_autofix_by_length (row : Row) (p : String)
    (hhas : dictHas row "phone" = true)
    (hget : dictGet row "phone" (PyVal.vstr "") = PyVal.vstr p)
    (hne : pyStrip p ≠ "")
    (hnv : nullVariants.contains (pyStrip p) = false) :
    (7 ≤ (keepDigitsPlus (pyStrip p)).toList.length →
      (keepDigitsPlus (pyStrip p)).toList.length < 10 →
      dictGet (auto_fix_row row).1 "phone" (PyVal.vstr "") =
        PyVal.vstr ("000" ++ keepDigitsPlus (pyStrip p)) ∧
      ("Phone number padded with placeholder area code (" ++ pyStrip p ++
        " -> " ++ ("000" ++ keepDigitsPlus (pyStrip p)) ++ ")") ∈
        (auto_fix_row row).2) ∧
    ((keepDigitsPlus (pyStrip p)).toList.length < 7 →
      dictGet (auto_fix_row row).1 "phone" (PyVal.vstr "") = PyVal.vstr "" ∧
      ("Phone number too short, cleared (" ++ pyStrip p ++ ")") ∈
        (auto_fix_row row).2) ∧
    (10 ≤ (keepDigitsPlus (pyStrip p)).toList.length →
      dictGet (auto_fix_row row).1 "phone" (PyVal.vstr "") =
        PyVal.vstr (keepDigitsPlus (pyStrip p))) := by
  have hhas1 : dictHas (auto_fix_email row []).1 "phone" = true := by
    rw [auto_fix_email_phone_has]
    exact hhas
  have hget1 : dictGet (auto_fix_email row []).1 "phone" (PyVal.vstr "") =
      PyVal.vstr p := by
    rw [auto_fix_email_phone_lookup]
    exact hget
  have hspec := auto_fix_phone_spec (auto_fix_email row []).1
    (auto_fix_email row []).2 p hhas1 hget1 hne hnv
  refine ⟨?_, ?_, ?_⟩
  · intro h1 h2
    have heq := hspec.1 h1 h2
    constructor
    · rw [auto_fix_row_phone_lookup, heq]
      exact dictGet_dictSet_self _ _ _ _
    · apply auto_fix_row_keeps_phone_fix
      rw [heq]
      simp
  · intro h1
    have heq := hspec.2.1 h1
    constructor
    · rw [auto_fix_row_phone_lookup, heq]
      exact dictGet_dictSet_self _ _ _ _
    · apply auto_fix_row_keeps_phone_fix
      rw [heq]
      simp
  · intro h1
    have heq := hspec.2.2 h1
    rw [auto_fix_row_phone_lookup, heq]
    exact dictGet_dictSet_self _ _ _ _

/-- Witness for C9: a 7-character remainder (`+123456`, six digits) is
padded, a 5-character one is cleared, a 10-character one is unpadded. -/
theorem c9_phone_autofix_by_length_witness :
    dictGet (auto_fix_row [("email", PyVal.vstr "a@b.com"),
        ("phone", PyVal.vstr "+123456")]).1 "phone" (PyVal.vstr "") =
      PyVal.vstr ("000" ++ keepDigitsPlus (pyStrip "+123456")) ∧
    ("Phone number padded with placeholder area code (" ++ pyStrip "+123456" ++
      " -> " ++ ("000" ++ keepDigitsPlus (pyStrip "+123456")) ++ ")") ∈
      (auto_fix_row [("email", PyVal.vstr "a@b.com"),
        ("phone", PyVal.vstr "+123456")]).2 ∧
    dictGet (auto_fix_row [("email", PyVal.vstr "a@b.com"),
        ("phone", PyVal.vstr "12345")]).1 "phone" (PyVal.vstr "") =
      PyVal.vstr "" ∧
    dictGet (auto_fix_row [("email", PyVal.vstr "a@b.com"),
        ("phone", PyVal.vstr "+123456789")]).1 "phone" (PyVal.vstr "") =
      PyVal.vstr (keepDigitsPlus (pyStrip "+123456789")) := by
  have w1 := (c9_phone_autofix_by_length
    [("email", PyVal.vstr "a@b.com"), ("phone", PyVal.vstr "+123456")]
    "+123456" rfl rfl (by decide) (by decide)).1 (by decide) (by decide)
  have w2 := (c9_phone_autofix_by_length
    [("email", PyVal.vstr "a@b.com"), ("phone", PyVal.vstr "12345")]
    "12345" rfl rfl (by decide) (by decide)).2.1 (by decide)
  have w3 := (c9_phone_autofix_by_length
    [("email", PyVal.vstr "a@b.com"), ("phone", PyVal.vstr "+123456789")]
    "+123456789" rfl rfl (by decide) (by decide)).2.2 (by decide)
  exact ⟨w1.1, w1.2, w2.1, w3⟩

/-! ## Lemmas about the lenient-validation stages -/

theorem validate_clean_phone_lookup_ne (rd : Row) (k : String) (dflt : PyVal)
    (hk : k ≠ "phone") :
    dictGet (validate_clean_phone rd) k dflt = dictGet rd k dflt := by
  unfold validate_clean_phone
  split
  · exact dictGet_dictSet_ne _ _ _ _ _ hk
  · rfl

theorem validate_clean_phone_has_ne (rd : Row) (k : String) (hk : k ≠ "phone") :
    dictHas (validate_clean_phone rd) k = dictHas rd k := by
  unfold validate_clean_phone
  split
  · exact dictHas_dictSet_ne _ _ _ _ hk
  · rfl

theorem validate_clean_name_lookup_ne (rd : Row) (k : String) (dflt : PyVal)
    (hk : k ≠ "name") :
    dictGet (validate_clean_name rd) k dflt = dictGet rd k dflt := by
  unfold validate_clean_name
  split
  · exact dictGet_dictSet_ne _ _ _ _ _ hk
  · rfl

theorem validate_clean_phone_get (rd : Row) (dflt : PyVal)
    (hg : (dictHas rd "phone" && pyTruthy (dictGet rd "phone" (.vstr "")) &&
      !(nullVariants.contains (pyStrip (pyStr (dictGet rd "phone" (.vstr "")))))) =
      true) :
    dictGet (validate_clean_phone rd) "phone" dflt =
      (if keepDigitsPlus (pyStrip (pyStr (dictGet rd "phone" (.vstr "")))) = ""
       then PyVal.vnone
       else PyVal.vstr (keepDigitsPlus (pyStrip (pyStr
         (dictGet rd "phone" (.vstr "")))))) := by
  unfold validate_clean_phone
  rw [if_pos hg]
  exact dictGet_dictSet_self _ _ _ _

theorem validate_clean_name_get (rd : Row) (dflt : PyVal)
    (hg : dictHas rd "name" = true) :
    dictGet (validate_clean_name rd) "name" dflt =
      (if pyStrip (pyStr (dictGet rd "name" (.vstr ""))) ≠ "" &&
          !(nullVariants.contains (pyStrip (pyStr (dictGet rd "name" (.vstr "")))))
       then PyVal.vstr (pyStrip (pyStr (dictGet rd "name" (.vstr ""))))
       else PyVal.vnone) := by
  unfold validate_clean_name
  rw [if_pos hg]
  exact dictGet_dictSet_self _ _ _ _

/-- C6 amended: lenient validation rejects a row exactly when every field
is null-like, or the stripped email is empty or null-like, or the email
fails the canonical pattern — and in the pattern-failure case the message
carries the offending value.  On success the returned row has the email
lower-cased and trimmed, the phone (when present, truthy and not
null-like) reduced to its digits and `+` characters (`None` when nothing
remains), the name (when present) trimmed (`None` when empty or
null-like), and EVERY field other than email/phone/name untouched. -/
theorem c6_lenient_validation_spec (row : Row) :
    ((∃ e, validate_row_lenient row = .error e) ↔
      ((row.map Prod.fst).all (fun col =>
          pyIsNA (dictGet row col PyVal.vnone) ||
          nullVariants.contains (pyStrip (pyStr (dictGet row col (PyVal.vstr ""))))) =
        true ∨
       pyStrip (pyStr (dictGet row "email" (PyVal.vstr ""))) = "" ∨
       nullVariants.contains (pyStrip (pyStr (dictGet row "email" (PyVal.vstr "")))) =
         true ∨
       emailRegexMatch (pyStrip (pyStr (dictGet row "email" (PyVal.vstr "")))) =
         false)) ∧
    ((row.map Prod.fst).all (fun col =>
        pyIsNA (dictGet row col PyVal.vnone) ||
        nullVariants.contains (pyStrip (pyStr (dictGet row col (PyVal.vstr ""))))) =
      false →
     pyStrip (pyStr (dictGet row "email" (PyVal.vstr ""))) ≠ "" →
     nullVariants.contains (pyStrip (pyStr (dictGet row "email" (PyVal.vstr "")))) =
       false →
     emailRegexMatch (pyStrip (pyStr (dictGet row "email" (PyVal.vstr "")))) =
       false →
     validate_row_lenient row =
       .error ("Invalid email format: \x27" ++
         pyStrip (pyStr (dictGet row "email" (PyVal.vstr ""))) ++ "\x27")) ∧
    (∀ r, validate_row_lenient row = .ok r →
      (∀ dflt, dictGet r "email" dflt =
        PyVal.vstr (pyLower (pyStrip (pyStr (dictGet row "email" (PyVal.vstr "")))))) ∧
      (∀ k dflt, k ≠ "email" → k ≠ "phone" → k ≠ "name" →
        dictGet r k dflt = dictGet row k dflt) ∧
      ((dictHas row "phone" && pyTruthy (dictGet row "phone" (PyVal.vstr "")) &&
        !(nullVariants.contains (pyStrip (pyStr (dictGet row "phone"
          (PyVal.vstr "")))))) = true →
       ∀ dflt, dictGet r "phone" dflt =
         (if keepDigitsPlus (pyStrip (pyStr (dictGet row "phone" (PyVal.vstr "")))) = ""
          then PyVal.vnone
          else PyVal.vstr (keepDigitsPlus (pyStrip (pyStr (dictGet row "phone"
            (PyVal.vstr ""))))))) ∧
      (dictHas row "name" = true →
       ∀ dflt, dictGet r "name" dflt =
         (if pyStrip (pyStr (dictGet row "name" (PyVal.vstr ""))) ≠ "" &&
             !(nullVariants.contains (pyStrip (pyStr (dictGet row "name"
               (PyVal.vstr "")))))
          then PyVal.vstr (pyStrip (pyStr (dictGet row "name" (PyVal.vstr ""))))
          else PyVal.vnone))) := by
  refine ⟨⟨?_, ?_⟩, ?_, ?_⟩
  · rintro ⟨e, he⟩
    simp only [validate_row_lenient] at he
    by_cases hA : ((row.map Prod.fst).all (fun col =>
        pyIsNA (dictGet row col PyVal.vnone) ||
        nullVariants.contains (pyStrip (pyStr (dictGet row col (PyVal.vstr "")))))) = true
    · exact Or.inl hA
    · rw [if_neg hA] at he
      by_cases hB : (decide (pyStrip (pyStr (dictGet row "email" (PyVal.vstr ""))) = "") ||
          nullVariants.contains (pyStrip (pyStr (dictGet row "email" (PyVal.vstr ""))))) = true
      · have hB' : decide (pyStrip (pyStr (dictGet row "email" (PyVal.vstr ""))) = "") =
            true ∨ nullVariants.contains (pyStrip (pyStr (dictGet row "email"
              (PyVal.vstr "")))) = true := by
          rwa [Bool.or_eq_true] at hB
        rcases hB' with h | h
        · exact Or.inr (Or.inl (of_decide_eq_true h))
        · exact Or.inr (Or.inr (Or.inl h))
      · rw [if_neg hB] at he
        by_cases hC : (!(emailRegexMatch (pyStrip (pyStr (dictGet row "email"
            (PyVal.vstr "")))))) = true
        · exact Or.inr (Or.inr (Or.inr (by simpa using hC)))
        · rw [if_neg hC] at he
          exact absurd he (by simp)
  · intro h
    by_cases hA : ((row.map Prod.fst).all (fun col =>
        pyIsNA (dictGet row col PyVal.vnone) ||
        nullVariants.contains (pyStrip (pyStr (dictGet row col (PyVal.vstr "")))))) = true
    · exact ⟨_, by simp only [validate_row_lenient]; rw [if_pos hA]⟩
    · by_cases hB : (decide (pyStrip (pyStr (dictGet row "email" (PyVal.vstr ""))) = "") ||
          nullVariants.contains (pyStrip (pyStr (dictGet row "email" (PyVal.vstr ""))))) = true
      · exact ⟨_, by simp only [validate_row_lenient]; rw [if_neg hA, if_pos hB]⟩
      · have hC : emailRegexMatch (pyStrip (pyStr (dictGet row "email"
            (PyVal.vstr "")))) = false := by
          rcases h with h | h | h | h
          · exact absurd h hA
          · exact absurd (by rw [h]; simp) hB
          · exact absurd (by rw [h]; simp) hB
          · exact h
        exact ⟨_, by
          simp only [validate_row_lenient]
          rw [if_neg hA, if_neg hB, if_pos (by rw [hC]; rfl)]⟩
  · intro hA0 hEMne hEMnv hC
    simp only [validate_row_lenient]
    rw [if_neg (show ¬((row.map Prod.fst).all (fun col =>
        pyIsNA (dictGet row col PyVal.vnone) ||
        nullVariants.contains (pyStrip (pyStr (dictGet row col (PyVal.vstr ""))))) = true)
      by rw [hA0]; simp)]
    rw [if_neg (show ¬((decide (pyStrip (pyStr (dictGet row "email" (PyVal.vstr ""))) = "") ||
        nullVariants.contains (pyStrip (pyStr (dictGet row "email" (PyVal.vstr ""))))) = true)
      by
        rw [Bool.or_eq_true]
        rintro (h | h)
        · exact hEMne (of_decide_eq_true h)
        · rw [hEMnv] at h
          exact Bool.noConfusion h)]
    rw [if_pos (show (!(emailRegexMatch (pyStrip (pyStr (dictGet row "email"
        (PyVal.vstr "")))))) = true by rw [hC]; rfl)]
  · intro r hr
    simp only [validate_row_lenient] at hr
    by_cases hA : ((row.map Prod.fst).all (fun col =>
        pyIsNA (dictGet row col PyVal.vnone) ||
        nullVariants.contains (pyStrip (pyStr (dictGet row col (PyVal.vstr "")))))) = true
    · rw [if_pos hA] at hr
      exact absurd hr (by simp)
    · rw [if_neg hA] at hr
      by_cases hB : (decide (pyStrip (pyStr (dictGet row "email" (PyVal.vstr ""))) = "") ||
          nullVariants.contains (pyStrip (pyStr (dictGet row "email" (PyVal.vstr ""))))) = true
      · rw [if_pos hB] at hr
        exact absurd hr (by simp)
      · rw [if_neg hB] at hr
        by_cases hC : (!(emailRegexMatch (pyStrip (pyStr (dictGet row "email"
            (PyVal.vstr "")))))) = true
        · rw [if_pos hC] at hr
          exact absurd hr (by simp)
        · rw [if_neg hC] at hr
          injection hr with hr
          subst hr
          refine ⟨?_, ?_, ?_, ?_⟩
          · intro dflt
            rw [validate_clean_name_lookup_ne _ _ _ (by decide),
                validate_clean_phone_lookup_ne _ _ _ (by decide)]
            exact dictGet_dictSet_self _ _ _ _
          · intro k dflt hk1 hk2 hk3
            rw [validate_clean_name_lookup_ne _ _ _ hk3,
                validate_clean_phone_lookup_ne _ _ _ hk2,
                dictGet_dictSet_ne _ _ _ _ _ hk1]
          · intro hg dflt
            have hPH : dictHas (dictSet row "email" (PyVal.vstr (pyLower (pyStrip
                (pyStr (dictGet row "email" (PyVal.vstr ""))))))) "phone" =
                dictHas row "phone" := dictHas_dictSet_ne _ _ _ _ (by decide)
            have hPG : dictGet (dictSet row "email" (PyVal.vstr (pyLower (pyStrip
                (pyStr (dictGet row "email" (PyVal.vstr ""))))))) "phone"
                (PyVal.vstr "") = dictGet row "phone" (PyVal.vstr "") :=
              dictGet_dictSet_ne _ _ _ _ _ (by decide)
            rw [validate_clean_name_lookup_ne _ _ _ (by decide),
                validate_clean_phone_get _ _ (by rw [hPH, hPG]; exact hg), hPG]
          · intro hn dflt
            have hNH : dictHas (validate_clean_phone (dictSet row "email"
                (PyVal.vstr (pyLower (pyStrip (pyStr (dictGet row "email"
                  (PyVal.vstr "")))))))) "name" = dictHas row "name" := by
              rw [validate_clean_phone_has_ne _ _ (by decide),
                  dictHas_dictSet_ne _ _ _ _ (by decide)]
            have hNG : dictGet (validate_clean_phone (dictSet row "email"
                (PyVal.vstr (pyLower (pyStrip (pyStr (dictGet row "email"
                  (PyVal.vstr "")))))))) "name" (PyVal.vstr "") =
                dictGet row "name" (PyVal.vstr "") := by
              rw [validate_clean_phone_lookup_ne _ _ _ (by decide),
                  dictGet_dictSet_ne _ _ _ _ _ (by decide)]
            rw [validate_clean_name_get _ _ (by rw [hNH]; exact hn), hNG]

/-- Witness for C6: the rejection message carries the offending email; an
all-empty-email row is rejected; on a successful row the phone is cleaned
and an unrecognized column is untouched. -/
theorem c6_lenient_validation_spec_witness :
    validate_row_lenient [("email", PyVal.vstr "not-an-email"), ("name", PyVal.vstr "A")] =
      .error ("Invalid email format: \x27" ++
        pyStrip (pyStr (dictGet [("email", PyVal.vstr "not-an-email"),
          ("name", PyVal.vstr "A")] "email" (PyVal.vstr ""))) ++ "\x27") ∧
    (∃ e, validate_row_lenient [("email", PyVal.vstr "")] = .error e) ∧
    dictGet [("email", PyVal.vstr "a@b.com"), ("phone", PyVal.vstr "5551234"),
        ("plan", PyVal.vstr "Pro")] "plan" PyVal.vnone =
      dictGet [("email", PyVal.vstr "A@B.com"), ("phone", PyVal.vstr "555-1234"),
        ("plan", PyVal.vstr "Pro")] "plan" PyVal.vnone ∧
    dictGet [("email", PyVal.vstr "a@b.com"), ("phone", PyVal.vstr "5551234"),
        ("plan", PyVal.vstr "Pro")] "phone" PyVal.vnone =
      (if keepDigitsPlus (pyStrip (pyStr (dictGet [("email", PyVal.vstr "A@B.com"),
          ("phone", PyVal.vstr "555-1234"), ("plan", PyVal.vstr "Pro")] "phone"
          (PyVal.vstr "")))) = ""
       then PyVal.vnone
       else PyVal.vstr (keepDigitsPlus (pyStrip (pyStr (dictGet
         [("email", PyVal.vstr "A@B.com"), ("phone", PyVal.vstr "555-1234"),
          ("plan", PyVal.vstr "Pro")] "phone" (PyVal.vstr "")))))) := by
  refine ⟨?_, ?_, ?_, ?_⟩
  · exact (c6_lenient_validation_spec
      [("email", PyVal.vstr "not-an-email"), ("name", PyVal.vstr "A")]).2.1
      (by decide) (by decide) (by decide) (by decide)
  · exact (c6_lenient_validation_spec [("email", PyVal.vstr "")]).1.mpr
      (Or.inr (Or.inl (by decide)))
  · exact ((c6_lenient_validation_spec
      [("email", PyVal.vstr "A@B.com"), ("phone", PyVal.vstr "555-1234"),
       ("plan", PyVal.vstr "Pro")]).2.2 _ rfl).2.1 "plan" PyVal.vnone
      (by decide) (by decide) (by decide)
  · exact ((c6_lenient_validation_spec
      [("email", PyVal.vstr "A@B.com"), ("phone", PyVal.vstr "555-1234"),
       ("plan", PyVal.vstr "Pro")]).2.2 _ rfl).2.2.1 (by decide) PyVal.vnone
